import Mathlib

/-!
# Verification of the schemer schema-validation engine

This file gives a shallow embedding, in Lean 4, of the core of the
`schemer` library (`schemer/__init__.py`): Python 2 values, the
`Schema`/`Array` data model, schema self-verification
(`Schema._verify`, `_verify_field_spec`, `_verify_type`,
`_verify_default`, `_verify_validates`, `_verify_validator`), default
application (`Schema.apply_defaults`) and instance validation
(`Schema.validate`, `_validate_instance`, `_validate_value`,
`_apply_validations`), together with theorems settling the behavioural
claims about these operations.

Python values, including schemas, type objects and documents, are
embedded as one inductive type `Obj`, mirroring Python's single-universe
dynamic typing.  Python callables are represented by an arity (what
`inspect.getargspec` reports) and an index into an external environment
`Env` that maps a function index and an argument list to the call's
outcome, so theorems quantify over all possible behaviours of
user-supplied validator and dynamic-type functions.  Exceptions are
modelled with `Except`; the recursive traversals take an explicit fuel
parameter (structural recursion on `Nat`) and exhausting the fuel is
Python's `RecursionError` — every theorem about a traversal either
quantifies over the fuel or conditions on the traversal returning a
result, so the fuel never weakens a statement.
-/

set_option maxHeartbeats 1000000

namespace Schemer

/-- Python primitive type objects that occur in field specs
(`int`, `basestring`, `bool`). -/
inductive PrimType where
  | int
  | str
  | bool
deriving DecidableEq

/-- A Python value / object.  `typ` is a primitive type object, `array`
is a `schemer.Array(contained_type)` instance, `schema` is a constructed
`schemer.Schema` (its `_doc_spec`, `_strict` flag and `_validates`
argument), and `func a i` is a Python function whose `getargspec` arity
is `a` and whose call behaviour is entry `i` of the ambient `Env`. -/
inductive Obj where
  | none
  | int (n : Int)
  | str (s : String)
  | bool (b : Bool)
  | list (items : List Obj)
  | dict (kvs : List (String × Obj))
  | typ (p : PrimType)
  | array (contained : Obj)
  | schema (ds : List (String × Obj)) (strict : Bool) (validates : Obj)
  | func (arity : Nat) (fid : Nat)

/-- Outcome of calling a user-supplied Python function: a returned value
or a raised exception (with its `str(e)` rendering). -/
inductive FnOut where
  | ret (o : Obj)
  | raised (msg : String)

/-- The behaviour of every user-supplied callable: function index and
argument list to call outcome. -/
abbrev Env := Nat → List Obj → FnOut

/-- Python exceptions that the embedded code can raise.
`schemaFormat` is `SchemaFormatException(message, path)`; `maxRecursion`
stands for exhausting the interpreter stack. -/
inductive Exn where
  | schemaFormat (message : String) (path : String)
  | typeError (msg : String)
  | keyError (key : String)
  | attributeError (msg : String)
  | userError (msg : String)
  | maxRecursion
deriving DecidableEq

/-- `str(e)` for a modelled exception. -/
def exnStr : Exn → String
  | .schemaFormat m _ => m
  | .typeError m => m
  | .keyError k => k
  | .attributeError m => m
  | .userError m => m
  | .maxRecursion => "maximum recursion depth exceeded"

/-- First-occurrence lookup in an association list, i.e. Python `d[k]`
as a partial lookup (Python dicts cannot hold duplicate keys, so on
faithfully built dicts the first occurrence is the only one). -/
def lookupStr : List (String × Obj) → String → Option Obj
  | [], _ => Option.none
  | (k, v) :: rest, key => if k = key then some v else lookupStr rest key

/-- Python `k in d` for a dict's key list. -/
def containsKey (l : List (String × Obj)) (key : String) : Bool :=
  (lookupStr l key).isSome

/-- Python `d[k] = v`: replace the first binding of `k` in place, else
append a new binding. -/
def dictSet : List (String × Obj) → String → Obj → List (String × Obj)
  | [], key, v => [(key, v)]
  | (k, w) :: rest, key, v =>
    if k = key then (k, v) :: rest else (k, w) :: dictSet rest key v

/-- The error collection threaded through `_validate_instance`: a Python
dict from path strings to recorded messages (messages are whatever the
validator returned, hence `Obj`). -/
abbrev Errors := List (String × Obj)

/-- `errors[path] = msg`. -/
def errSet (e : Errors) (path : String) (msg : Obj) : Errors :=
  dictSet e path msg

/-- Lookup of the message recorded at a path. -/
def errLookup (e : Errors) (path : String) : Option Obj :=
  lookupStr e path

/-- Python truthiness (`bool(o)`), used by `if error:` and the
`spec.get('required', False)` style checks. -/
def pyTruthy : Obj → Bool
  | .none => false
  | .int n => n != 0
  | .str s => s != ""
  | .bool b => b
  | .list items => !items.isEmpty
  | .dict kvs => !kvs.isEmpty
  | .typ _ => true
  | .array _ => true
  | .schema _ _ _ => true
  | .func _ _ => true

/-- `isinstance(v, p)` for a primitive type object `p`.  As in Python,
`bool` is a subclass of `int`. -/
def isInstPrim : Obj → PrimType → Bool
  | .int _, .int => true
  | .bool _, .int => true
  | .bool _, .bool => true
  | .str _, .str => true
  | _, _ => false

/-- Python `callable(o)`: functions and type objects are callable,
plain values, `Array` and `Schema` instances are not. -/
def pyCallable : Obj → Bool
  | .func _ _ => true
  | .typ _ => true
  | _ => false

/-- Whether the object is a dict (`isinstance(o, dict)`). -/
def isDictObj : Obj → Bool
  | .dict _ => true
  | _ => false

/-- Whether the object is a list (`isinstance(o, list)`). -/
def isListObj : Obj → Bool
  | .list _ => true
  | _ => false

/-- Whether the object is a plain function
(`isinstance(o, types.FunctionType)`). -/
def isFuncObj : Obj → Bool
  | .func _ _ => true
  | _ => false

/-- A coarse `str(o)` used only to build error-message text. -/
def pyStrOf : Obj → String
  | .none => "None"
  | .int n => toString n
  | .str s => s
  | .bool b => if b then "True" else "False"
  | .list _ => "<list>"
  | .dict _ => "<dict>"
  | .typ .int => "<type \x27int\x27>"
  | .typ .str => "<type \x27basestring\x27>"
  | .typ .bool => "<type \x27bool\x27>"
  | .array _ => "<schemer.Array object>"
  | .schema _ _ _ => "<schemer.Schema object>"
  | .func _ _ => "<function>"

/-- `"{}".format(field_type)` as used in the type-mismatch message. -/
def typeRepr (o : Obj) : String := pyStrOf o

/-- Calling a primitive type object, e.g. `int()` for a zero-argument
callable default. -/
def typCall (p : PrimType) (args : List Obj) : Except Exn Obj :=
  match args with
  | [] =>
    match p with
    | .int => .ok (.int 0)
    | .str => .ok (.str "")
    | .bool => .ok (.bool false)
  | [a] =>
    match p with
    | .int =>
      match a with
      | .int n => .ok (.int n)
      | .bool b => .ok (.int (if b then 1 else 0))
      | .str s =>
        match s.toInt? with
        | some n => .ok (.int n)
        | Option.none => .error (.typeError "invalid literal for int()")
      | _ => .error (.typeError "int() argument must be a string or a number")
    | .str => .ok (.str (pyStrOf a))
    | .bool => .ok (.bool (pyTruthy a))
  | _ => .error (.typeError "too many arguments")

/-- Calling a Python object with the given arguments.  A `func` with the
wrong number of arguments raises `TypeError` before its body runs; a
raise inside the body surfaces as `userError`. -/
def pyCall (env : Env) (f : Obj) (args : List Obj) : Except Exn Obj :=
  match f with
  | .func a fid =>
    if args.length = a then
      match env fid args with
      | .ret o => .ok o
      | .raised m => .error (.userError m)
    else .error (.typeError "function takes a different number of arguments")
  | .typ p => typCall p args
  | _ => .error (.typeError "object is not callable")

/-- `a` is a prefix of `b` (on character lists). -/
def charsLead : List Char → List Char → Bool
  | [], _ => true
  | _ :: _, [] => false
  | a :: as, b :: bs => a = b && charsLead as bs

/-- `a` occurs inside `b` (on character lists), for Python's substring
`in` on strings. -/
def charsSub (needle : List Char) : List Char → Bool
  | [] => needle.isEmpty
  | c :: rest => charsLead needle (c :: rest) || charsSub needle rest

/-- Python `o == key` for a string literal `key` (only string objects
compare equal to a string). -/
def eqStrObj (key : String) : Obj → Bool
  | .str s => s = key
  | _ => false

/-- Python `key in o`.  Works on dicts (key membership), lists (element
membership) and strings (substring test) and raises `TypeError` on
non-iterable values — exactly the semantics `apply_defaults` relies on
when it recurses into arbitrary array elements. -/
def pyContains (o : Obj) (key : String) : Except Exn Bool :=
  match o with
  | .dict kvs => .ok (containsKey kvs key)
  | .list items => .ok (items.any (eqStrObj key))
  | .str s => .ok (charsSub key.data s.data)
  | _ => .error (.typeError "argument of type is not iterable")

/-- Python `o[key]` with a string key. -/
def pyGetItemStr (o : Obj) (key : String) : Except Exn Obj :=
  match o with
  | .dict kvs =>
    match lookupStr kvs key with
    | some v => .ok v
    | Option.none => .error (.keyError key)
  | _ => .error (.typeError "object is unsubscriptable with a string key")

/-- Python `o[key] = v` with a string key. -/
def pySetItemStr (o : Obj) (key : String) (v : Obj) : Except Exn Obj :=
  match o with
  | .dict kvs => .ok (.dict (dictSet kvs key v))
  | _ => .error (.typeError "object does not support item assignment")

/-- Python `o.get(key, dflt)` — only dicts have `.get`. -/
def pyGetAttrD (o : Obj) (key : String) (dflt : Obj) : Except Exn Obj :=
  match o with
  | .dict kvs => .ok ((lookupStr kvs key).getD dflt)
  | _ => .error (.attributeError "object has no attribute get")

/-- `Schema._append_path`: dotted path composition (the empty prefix,
like the `None`/`''` prefix in the source, is dropped). -/
def appendPath (px fld : String) : String :=
  if px = "" then fld else px ++ "." ++ fld

/-- `isinstance(v, cls)` for an arbitrary class operand, as used for the
resolved field type; a non-class second argument raises `TypeError`. -/
def pyIsInstance (v cls : Obj) : Except Exn Bool :=
  match cls with
  | .typ p => .ok (isInstPrim v p)
  | _ => .error (.typeError "isinstance() arg 2 must be a class, type, or tuple")

/-- Whether a dynamic-type function's return value passes the
`isinstance(field_type, (type, Schema, Array))` check in
`_validate_value`. -/
def usableType : Obj → Bool
  | .typ _ => true
  | .schema _ _ _ => true
  | .array _ => true
  | _ => false

/-- The inner `apply` of `Schema._apply_validations`: call one validator
and record a truthy result at the path. -/
def applyOne (env : Env) (errors : Errors) (path : String) (value fn : Obj) :
    Except Exn Errors := do
  let r ← pyCall env fn [value]
  pure (if pyTruthy r then errSet errors path r else errors)

/-- `Schema._apply_validations(errors, path, validations, value)`: a
list of validators is applied in order, anything else is applied as a
single validator. -/
def applyValidationsObj (env : Env) (errors : Errors) (path : String)
    (validations value : Obj) : Except Exn Errors :=
  match validations with
  | .list fns => fns.foldlM (fun acc fn => applyOne env acc path value fn) errors
  | v => applyOne env errors path value v

/-- The strict-mode sweep at the end of `_validate_instance`: every
instance key not declared in the schema gets an error. -/
def strictExtras (ds : List (String × Obj)) (px : String)
    (kvs : List (String × Obj)) (errors : Errors) : Errors :=
  kvs.foldl
    (fun acc kv =>
      if containsKey ds kv.1 then acc
      else errSet acc (appendPath px kv.1)
        (.str "Unexpected document field not present in schema"))
    errors

/-- The `validates` entry of a field spec, applied at the end of
`_validate_value` when it is present (`field_spec.get('validates', None)`). -/
def runValidates (env : Env) (spec v : Obj) (path : String) (errors : Errors) :
    Except Exn Errors := do
  let validations ← pyGetAttrD spec "validates" .none
  match validations with
  | .none => .ok errors
  | vs => applyValidationsObj env errors path vs v

/-- The pending work of the mutually recursive validation walk:
`inst` is `_validate_instance` (doc spec, strict flag, schema-level
validators, the instance, the error dict, the path prefix), `fields` is
its loop over declared fields, `value` is `_validate_value`, `valueT` is
`_validate_value` after the effective field type has been resolved, and
`items` is the element loop of the Array branch. -/
inductive VCall where
  | inst (ds : List (String × Obj)) (strict : Bool) (svs : Obj) (doc : Obj)
      (errors : Errors) (px : String)
  | fields (ds : List (String × Obj)) (kvs : List (String × Obj))
      (errors : Errors) (px : String)
  | value (v : Obj) (spec : Obj) (path : String) (errors : Errors)
  | valueT (ft : Obj) (v : Obj) (spec : Obj) (path : String) (errors : Errors)
  | items (contained : Obj) (isDyn : Bool) (rest : List Obj) (idx : Nat)
      (path : String) (errors : Errors)

/-- The validation walk of `_validate_instance` / `_validate_value`,
with explicit fuel (running out of fuel is Python's recursion limit).
Every branch mirrors the source: the non-dict check, schema-level
validators, the per-field loop with the required-field error, the
strict sweep, the `None`/nullable check, dynamic-type resolution with
its two `SchemaFormatException`s, the embedded-document branch, the
array branch (whose element loop does not abort on a bad element, and
which falls through to the field's `validates`), the plain `isinstance`
check, and `_apply_validations`. -/
def validateGo (env : Env) : Nat → VCall → Except Exn Errors
  | 0, _ => .error .maxRecursion
  | Nat.succ fuel, c =>
    match c with
    | .inst ds strict svs doc errors px =>
      match doc with
      | .dict kvs => do
        let e1 ← applyValidationsObj env errors px svs doc
        let e2 ← validateGo env fuel (.fields ds kvs e1 px)
        pure (if strict then strictExtras ds px kvs e2 else e2)
      | _ =>
        .ok (errSet errors px
          (.str "Expected instance of dict to validate against schema."))
    | .fields [] _ errors _ => .ok errors
    | .fields ((f, spec) :: ds) kvs errors px => do
      let path := appendPath px f
      let e1 ←
        if containsKey kvs f then
          validateGo env fuel (.value ((lookupStr kvs f).getD .none) spec path errors)
        else do
          let req ← pyGetAttrD spec "required" (.bool false)
          pure (if pyTruthy req then
            errSet errors path (.str (path ++ " is required.")) else errors)
      validateGo env fuel (.fields ds kvs e1 px)
    | .value v spec path errors =>
      match v with
      | .none => do
        let req ← pyGetAttrD spec "required" (.bool false)
        let nul ← pyGetAttrD spec "nullable" (.bool (!pyTruthy req))
        pure (if pyTruthy nul then errors
          else errSet errors path (.str (path ++ " is not nullable.")))
      | _ => do
        let ft0 ← pyGetItemStr spec "type"
        match ft0 with
        | .func a fid =>
          match pyCall env (.func a fid) [v] with
          | .error e =>
            .error (.schemaFormat
              ("Dynamic schema function raised exception: " ++ exnStr e) path)
          | .ok ft1 =>
            if usableType ft1 then
              validateGo env fuel (.valueT ft1 v spec path errors)
            else
              .error (.schemaFormat
                "Dynamic schema function did not return a type at path {}" path)
        | _ => validateGo env fuel (.valueT ft0 v spec path errors)
    | .valueT ft v spec path errors =>
      match ft with
      | .schema ids st vs =>
        (match v with
         | .dict _ => validateGo env fuel (.inst ids st vs v errors path)
         | _ => .ok (errSet errors path
             (.str (path ++ " should be an embedded document"))))
      | .array contained =>
        (match v with
         | .list items => do
           let e1 ← validateGo env fuel
             (.items contained (isFuncObj contained) items 0 path errors)
           runValidates env spec v path e1
         | _ => .ok (errSet errors path
             (.str (path ++ " should be an embedded array"))))
      | _ => do
        let b ← pyIsInstance v ft
        if b then runValidates env spec v path errors
        else .ok (errSet errors path
          (.str ("Field should be of type " ++ typeRepr ft)))
    | .items _ _ [] _ _ errors => .ok errors
    | .items contained isDyn (item :: rest) idx path errors => do
      let ct ← if isDyn then pyCall env contained [item] else pure contained
      let ipath := appendPath path (toString idx)
      let e1 ←
        match ct with
        | .schema ids st vs => validateGo env fuel (.inst ids st vs item errors ipath)
        | _ => do
          let b ← pyIsInstance item ct
          pure (if b then errors
            else errSet errors ipath
              (.str ("Array item at " ++ ipath ++ " is of incorrect type")))
      validateGo env fuel (.items contained isDyn rest (idx + 1) path e1)

/-- Outcome of a `Schema.validate(instance)` call. -/
inductive VOut where
  | returned
  | validationException (errors : Errors)
  | raised (e : Exn)

/-- `Schema.validate(instance)`: run the whole traversal into a fresh
error dict and raise `ValidationException(errors)` afterwards exactly
when the dict is non-empty.  A `SchemaFormatException` (or other raw
exception) from the traversal propagates instead. -/
def validateRun (env : Env) (fuel : Nat) (ds : List (String × Obj))
    (strict : Bool) (svs : Obj) (doc : Obj) : VOut :=
  match validateGo env fuel (.inst ds strict svs doc [] "") with
  | .error e => .raised e
  | .ok errors =>
    if errors.length > 0 then .validationException errors else .returned

/-- Pending work of `Schema.apply_defaults`: `inst` is the per-field
loop of `apply_defaults` over the remaining doc-spec entries on the
given instance, `itemsD` is the element loop for an `Array` of a
nested `Schema`. -/
inductive DCall where
  | inst (ds : List (String × Obj)) (doc : Obj)
  | itemsD (ids : List (String × Obj)) (items : List Obj)

/-- Lines 32–38 of `apply_defaults`: if the field is absent from the
instance, materialise the declared default (invoking a callable default
with zero arguments) and assign it; otherwise leave the instance
untouched.  Containment tests and the assignment follow Python
semantics and can raise `TypeError`. -/
def defaultStep (env : Env) (spec doc : Obj) (f : String) : Except Exn Obj := do
  let c1 ← pyContains doc f
  if c1 then pure doc
  else do
    let hasD ← pyContains spec "default"
    if hasD then do
      let dflt ← pyGetItemStr spec "default"
      let dv ← if pyCallable dflt then pyCall env dflt [] else pure dflt
      pySetItemStr doc f dv
    else pure doc

/-- Which recursion the nested-document branch of `apply_defaults`
takes, from the declared type and the present value: the
`isinstance(field_type, Schema) and isinstance(value, dict)` arm, the
`isinstance(field_type, Array) and
isinstance(field_type.contained_type, Schema) and
isinstance(value, list)` arm, or no recursion. -/
inductive RecKind where
  | schemaRec (ids : List (String × Obj))
  | arrayRec (ids : List (String × Obj)) (items : List Obj)
  | skip

/-- The guard of the recursion arms (lines 44 and 47 of the source). -/
def recKind : Obj → Obj → RecKind
  | .schema ids _ _, .dict _ => .schemaRec ids
  | .array (.schema ids _ _), .list items => .arrayRec ids items
  | _, _ => .skip

/-- `Schema.apply_defaults(instance)` as in the source: for every field,
read `spec['type']`, insert the materialised default when the field is
absent (`defaultStep`), then — if the field is now present — recurse
into the value when the declared type is a nested `Schema` and the
value is a dict, or when it is an `Array(Schema)` and the value is a
list, in which case it recurses into *every* element of the list (the
source has no dict check on the element). -/
def applyDefaultsGo (env : Env) : Nat → DCall → Except Exn Obj
  | 0, _ => .error .maxRecursion
  | Nat.succ fuel, c =>
    match c with
    | .inst [] doc => .ok doc
    | .inst ((f, spec) :: ds) doc => do
      let _ft ← pyGetItemStr spec "type"
      let doc1 ← defaultStep env spec doc f
      let c2 ← pyContains doc1 f
      if c2 then do
        let value ← pyGetItemStr doc1 f
        match recKind _ft value with
        | .schemaRec ids => do
          let v2 ← applyDefaultsGo env fuel (.inst ids value)
          let doc2 ← pySetItemStr doc1 f v2
          applyDefaultsGo env fuel (.inst ds doc2)
        | .arrayRec ids items => do
          let v2 ← applyDefaultsGo env fuel (.itemsD ids items)
          let doc2 ← pySetItemStr doc1 f v2
          applyDefaultsGo env fuel (.inst ds doc2)
        | .skip => applyDefaultsGo env fuel (.inst ds doc1)
      else applyDefaultsGo env fuel (.inst ds doc1)
    | .itemsD _ [] => .ok (.list [])
    | .itemsD ids (item :: rest) => do
      let item2 ← applyDefaultsGo env fuel (.inst ids item)
      let rest2 ← applyDefaultsGo env fuel (.itemsD ids rest)
      match rest2 with
      | .list l => .ok (.list (item2 :: l))
      | _ => .error (.typeError "internal: itemsD returned a non-list")

/-- The key set a field spec may use
(`['type', 'required', 'validates', 'default', 'nullable']`). -/
def allowedKeys : List String := ["type", "required", "validates", "default", "nullable"]

/-- The key set allowed when the declared type is a nested `Schema`
(`['type', 'required', 'nullable', 'default']`). -/
def schemaAllowedKeys : List String := ["type", "required", "nullable", "default"]

/-- `set(spec.keys()).issubset(set(allowed))`. -/
def keysSubset (kvs : List (String × Obj)) (allowed : List String) : Bool :=
  kvs.all (fun kv => allowed.contains kv.1)

/-- `repr(spec.keys())` as interpolated into the unsupported-keys
message (modulo Python 2's hash-dependent key order, which the model
replaces by insertion order). -/
def reprKeys (kvs : List (String × Obj)) : String :=
  "[" ++ String.intercalate ", " (kvs.map (fun kv => "\x27" ++ kv.1 ++ "\x27")) ++ "]"

/-- `Schema._verify_validator`: the validator must be callable and
`getargspec` must report exactly one argument (`getargspec` itself
raises `TypeError` on a callable that is not a plain function). -/
def verifyValidator (validator : Obj) (path : String) : Except Exn Unit :=
  if pyCallable validator then
    match validator with
    | .func a _ =>
      if a = 1 then .ok ()
      else .error (.schemaFormat "Invalid validations for {}" path)
    | _ => .error (.typeError "getargspec() argument is not a Python function")
  else .error (.schemaFormat "Invalid validations for {}" path)

/-- `Schema._verify_validates`: a list is checked element-wise,
anything else as a single validator. -/
def verifyValidates (vl : Obj) (path : String) : Except Exn Unit :=
  match vl with
  | .list items => items.forM (fun it => verifyValidator it path)
  | v => verifyValidator v path

/-- `Schema._valid_schema_default`. -/
def validSchemaDefault : Obj → Bool
  | .dict _ => true
  | _ => false

/-- The element loop of `Schema._verify_default` for an Array type. -/
def verifyDefaultItems (contained : Obj) (path : String) :
    List Obj → Except Exn Unit
  | [] => .ok ()
  | item :: rest =>
    match contained with
    | .schema _ _ _ =>
      if validSchemaDefault item then verifyDefaultItems contained path rest
      else .error (.schemaFormat "Default value for Schema is not valid." path)
    | _ => do
      let b ← pyIsInstance item contained
      if b then verifyDefaultItems contained path rest
      else .error (.schemaFormat
        "Not all items in the default list for the Array field at {} are of the correct type."
        path)

/-- `Schema._verify_default`: a callable default is assumed valid;
otherwise an Array default must be a list of element-wise valid values,
a Schema default must be a dict, and a primitive default must be an
instance of the declared type. -/
def verifyDefault (ftype dflt : Obj) (path : String) : Except Exn Unit :=
  if pyCallable dflt then .ok ()
  else
    match ftype with
    | .array contained =>
      (match dflt with
       | .list items => verifyDefaultItems contained path items
       | _ => .error (.schemaFormat
           "Default value for Array at {} is not a list of values." path))
    | .schema _ _ _ =>
      if validSchemaDefault dflt then .ok ()
      else .error (.schemaFormat "Default value for Schema is not valid." path)
    | _ => do
      let b ← pyIsInstance dflt ftype
      if b then .ok ()
      else .error (.schemaFormat
        "Default value for {} is not of the nominated type." path)

/-- `Schema._verify_type`: a nested Schema restricts the allowed keys,
an Array restricts its contained type, and otherwise the type must be a
type object or a plain function. -/
def verifyType (speck : List (String × Obj)) (path : String) : Except Exn Unit :=
  match lookupStr speck "type" with
  | some (.schema _ _ _) =>
    if keysSubset speck schemaAllowedKeys then .ok ()
    else .error (.schemaFormat
      ("Unsupported field spec item at {}. Items: " ++ reprKeys speck) path)
  | some (.array contained) =>
    (match contained with
     | .typ _ => .ok ()
     | .schema _ _ _ => .ok ()
     | .array _ => .ok ()
     | .func _ _ => .ok ()
     | _ => .error (.schemaFormat
         "Unsupported field type contained by Array at {}." path))
  | some (.typ _) => .ok ()
  | some (.func _ _) => .ok ()
  | some _ => .error (.schemaFormat
      "Unsupported field type at {}. Type must be a type, a function, an Array or another Schema"
      path)
  | Option.none => .error (.keyError "type")

/-- `Schema._verify_field_spec`, with the source's check order:
boolean `required`, boolean `nullable`, presence of `type`, the type
itself, `validates`, `default`, and finally the allowed-key subset. -/
def verifyFieldSpec (speck : List (String × Obj)) (path : String) :
    Except Exn Unit := do
  (match lookupStr speck "required" with
   | some (.bool _) => .ok ()
   | Option.none => .ok ()
   | some _ => .error (.schemaFormat
       "{} required declaration should be True or False" path))
  (match lookupStr speck "nullable" with
   | some (.bool _) => .ok ()
   | Option.none => .ok ()
   | some _ => .error (.schemaFormat
       "{} nullable declaration should be True or False" path))
  (if containsKey speck "type" then .ok ()
   else .error (.schemaFormat "{} has no type declared." path))
  verifyType speck path
  (match lookupStr speck "validates" with
   | some vl => verifyValidates vl path
   | Option.none => .ok ())
  (match lookupStr speck "default" with
   | some d =>
     (match lookupStr speck "type" with
      | some ft => verifyDefault ft d path
      | Option.none => .error (.keyError "type"))
   | Option.none => .ok ())
  (if keysSubset speck allowedKeys then .ok ()
   else .error (.schemaFormat
     ("Unsupported field spec item at {}. Items: " ++ reprKeys speck) path))

/-- `Schema._verify`: every doc-spec entry must be a dict-based field
spec, verified in turn (the path prefix is `None` at construction, so
each error path is just the field name). -/
def verifyDocSpec : List (String × Obj) → String → Except Exn Unit
  | [], _ => .ok ()
  | (f, spec) :: rest, px => do
    let path := appendPath px f
    (match spec with
     | .dict kvs => verifyFieldSpec kvs path
     | _ => .error (.schemaFormat "Invalid field definition for {}" path))
    verifyDocSpec rest px

/-- `Schema.__init__(doc_spec, strict, validates)`: eagerly verify the
whole doc spec and only then produce the schema object. -/
def schemaInit (ds : List (String × Obj)) (strict : Bool) (svalidates : Obj) :
    Except Exn Obj := do
  verifyDocSpec ds ""
  .ok (.schema ds strict svalidates)

/-!
## A reference-semantics model of `apply_defaults`

The value-semantics embedding above cannot express object identity, but
`apply_defaults` assigns a non-callable default into the instance by
reference (`instance[field] = default`, with `copy` imported but never
used), so recursing into the inserted value mutates the very object
stored in the schema's field spec.  To exhibit this, the fragment of
`apply_defaults` that the scenario exercises (lines 30–45 of
`schemer/__init__.py`: absent-field default insertion and the
nested-`Schema` recursion guarded by `isinstance(value, dict)`) is
re-embedded over an explicit heap of dict objects, with field specs
restricted to the features those lines consult: a declared type that is
either primitive or a nested schema, and an optional non-callable
default given as a heap value (a reference for dict defaults). -/

/-- A heap value: an immutable primitive or a reference to a heap
object. -/
inductive HVal where
  | hint (n : Int)
  | ref (a : Nat)
deriving DecidableEq

/-- A mutable heap object (only dicts are needed). -/
inductive HObj where
  | hdict (kvs : List (String × HVal))
deriving DecidableEq

/-- The heap: addresses to objects. -/
abbrev Heap := List (Nat × HObj)

/-- Field specs for the reference-semantics fragment: a primitive or
nested-schema type with an optional default value (a `ref` for a dict
default, stored in the schema and therefore shared). -/
inductive HSpecT where
  | prim (dflt : Option HVal)
  | nested (ids : List (String × HSpecT)) (dflt : Option HVal)

/-- The declared default of a field spec. -/
def HSpecT.dflt : HSpecT → Option HVal
  | .prim d => d
  | .nested _ d => d

/-- Heap read. -/
def heapGet : Heap → Nat → Option HObj
  | [], _ => Option.none
  | (b, o) :: rest, a => if b = a then some o else heapGet rest a

/-- Heap write (first binding replaced in place). -/
def heapSet : Heap → Nat → HObj → Heap
  | [], a, o => [(a, o)]
  | (b, w) :: rest, a, o =>
    if b = a then (b, o) :: rest else (b, w) :: heapSet rest a o

/-- Key membership in a heap dict. -/
def hdictContains : List (String × HVal) → String → Bool
  | [], _ => false
  | (k, _) :: rest, key => k = key || hdictContains rest key

/-- Lookup in a heap dict. -/
def hdictLookup : List (String × HVal) → String → Option HVal
  | [], _ => Option.none
  | (k, v) :: rest, key => if k = key then some v else hdictLookup rest key

/-- Assignment into a heap dict. -/
def hdictSet : List (String × HVal) → String → HVal → List (String × HVal)
  | [], key, v => [(key, v)]
  | (k, w) :: rest, key, v =>
    if k = key then (k, v) :: rest else (k, w) :: hdictSet rest key v

/-- `apply_defaults` over the heap, on the instance at address `addr`:
for each field, if absent insert the spec's default *value* (for a dict
default this copies only the reference, exactly as
`instance[field] = default` does), then recurse into the field's value
when the declared type is a nested schema and the value refers to a
dict on the heap. -/
def applyDefaultsH : Nat → List (String × HSpecT) → Nat → Heap →
    Except Exn Heap
  | 0, _, _, _ => .error .maxRecursion
  | Nat.succ fuel, ds, addr, h =>
    match ds with
    | [] => .ok h
    | (f, spec) :: rest =>
      match heapGet h addr with
      | some (.hdict kvs) =>
        let kvs1 :=
          if hdictContains kvs f then kvs
          else
            match spec.dflt with
            | some v => hdictSet kvs f v
            | Option.none => kvs
        let h1 := heapSet h addr (.hdict kvs1)
        match hdictLookup kvs1 f, spec with
        | some (.ref a2), .nested ids _ =>
          (match heapGet h1 a2 with
           | some (.hdict _) => do
             let h2 ← applyDefaultsH fuel ids a2 h1
             applyDefaultsH fuel rest addr h2
           | Option.none => applyDefaultsH fuel rest addr h1)
        | _, _ => applyDefaultsH fuel rest addr h1
      | Option.none => .error (.typeError "instance is not a dict on the heap")

/-- A fixed environment for concrete runs whose functions are never
consulted. -/
def env0 : Env := fun _ _ => .raised "boom"

/-!
## Basic lemmas about the embedded primitives
-/

@[simp]
theorem exceptBind_ok {α β : Type} (a : α) (f : α → Except Exn β) :
    (Except.ok a >>= f : Except Exn β) = f a := rfl

@[simp]
theorem exceptBind_error {α β : Type} (e : Exn) (f : α → Except Exn β) :
    (Except.error e >>= f : Except Exn β) = .error e := rfl

@[simp]
theorem exceptPure_eq {α : Type} (a : α) :
    (pure a : Except Exn α) = .ok a := rfl

@[simp]
theorem lookupStr_dictSet_self (l : List (String × Obj)) (k : String) (v : Obj) :
    lookupStr (dictSet l k v) k = some v := by
  induction l with
  | nil => simp [dictSet, lookupStr]
  | cons hd tl ih =>
    obtain ⟨k', v'⟩ := hd
    by_cases hk : k' = k <;> simp [dictSet, lookupStr, hk, ih]

theorem lookupStr_dictSet_ne (l : List (String × Obj)) (k k' : String) (v : Obj)
    (h : k' ≠ k) : lookupStr (dictSet l k v) k' = lookupStr l k' := by
  induction l with
  | nil =>
    have hne : ¬k = k' := fun hh => h hh.symm
    simp [dictSet, lookupStr, hne]
  | cons hd tl ih =>
    obtain ⟨k0, v0⟩ := hd
    by_cases hk : k0 = k
    · have hne : ¬k0 = k' := fun hh => h (hh.symm.trans hk)
      have hkk : ¬k = k' := fun hh => h hh.symm
      simp [dictSet, hk, lookupStr, hne, hkk]
    · by_cases hk' : k0 = k' <;> simp [dictSet, lookupStr, hk, hk', ih, h]

theorem dictSet_lookup_self (l : List (String × Obj)) (k : String) (v : Obj)
    (h : lookupStr l k = some v) : dictSet l k v = l := by
  induction l with
  | nil => simp [lookupStr] at h
  | cons hd tl ih =>
    obtain ⟨k0, v0⟩ := hd
    by_cases hk : k0 = k
    · subst hk
      simp [lookupStr] at h
      simp [dictSet, h]
    · simp [lookupStr, hk] at h
      simp [dictSet, hk, ih h]

@[simp]
theorem errLookup_errSet_self (e : Errors) (p : String) (m : Obj) :
    errLookup (errSet e p m) p = some m :=
  lookupStr_dictSet_self e p m

theorem errLookup_errSet_ne (e : Errors) (p q : String) (m : Obj)
    (h : q ≠ p) : errLookup (errSet e p m) q = errLookup e q :=
  lookupStr_dictSet_ne e p q m h

theorem key_ne_of_not_containsKey :
    ∀ (l : List (String × Obj)) (key : String),
      containsKey l key = false → ∀ kv, kv ∈ l → kv.1 ≠ key := by
  intro l key
  induction l with
  | nil => intro _ kv hm; cases hm
  | cons hd tl ih =>
    intro h kv hm
    obtain ⟨k0, v0⟩ := hd
    by_cases hk : k0 = key
    · exfalso; simp [containsKey, lookupStr, hk] at h
    · have htl : containsKey tl key = false := by
        simpa [containsKey, lookupStr, hk] using h
      rcases List.mem_cons.mp hm with hm | hm
      · subst hm; simpa using hk
      · exact ih htl kv hm

theorem string_append_left_cancel {p a b : String} (h : p ++ a = p ++ b) :
    a = b := by
  have h2 : (p ++ a).data = (p ++ b).data := by rw [h]
  simp only [String.data_append] at h2
  exact String.ext (List.append_cancel_left h2)

theorem appendPath_right_inj (px : String) {a b : String}
    (h : appendPath px a = appendPath px b) : a = b := by
  by_cases hp : px = ""
  · simpa [appendPath, hp] using h
  · simp only [appendPath, hp, if_false] at h
    exact string_append_left_cancel (p := px ++ ".") (by
      simpa [String.append_assoc] using h)

theorem errLookup_strictExtras_ne (ds : List (String × Obj)) (px : String)
    (kvs : List (String × Obj)) (e : Errors) (q : String)
    (h : ∀ kv, kv ∈ kvs → appendPath px kv.1 ≠ q) :
    errLookup (strictExtras ds px kvs e) q = errLookup e q := by
  induction kvs generalizing e with
  | nil => simp [strictExtras]
  | cons hd tl ih =>
    have hstep : strictExtras ds px (hd :: tl) e =
        strictExtras ds px tl
          (if containsKey ds hd.1 then e
           else errSet e (appendPath px hd.1)
             (.str "Unexpected document field not present in schema")) := rfl
    rw [hstep, ih _ (fun kv hm => h kv (List.mem_cons_of_mem _ hm))]
    by_cases hc : containsKey ds hd.1
    · simp [hc]
    · simp only [hc, if_false]
      exact errLookup_errSet_ne _ _ _ _ (fun hq => h hd (List.mem_cons_self _ _) hq.symm)

/-!
## C1: `validate` raises iff the accumulated error set is non-empty
-/

/-- C1: for every schema and instance whose full traversal completes
with error set `errors`, `validate` raises `ValidationException`
carrying exactly that complete accumulated error set iff it is
non-empty, and returns silently iff it is empty — the exception is
produced only from the finished traversal's result, never mid-walk. -/
theorem validate_raises_iff_errors (env : Env) (fuel : Nat)
    (ds : List (String × Obj)) (strict : Bool) (svs doc : Obj)
    (errors : Errors)
    (h : validateGo env fuel (.inst ds strict svs doc [] "") = .ok errors) :
    (validateRun env fuel ds strict svs doc = .validationException errors ↔
      errors ≠ []) ∧
    (validateRun env fuel ds strict svs doc = .returned ↔ errors = []) := by
  unfold validateRun
  rw [h]
  cases errors with
  | nil => simp
  | cons hd tl => simp

def c1ds : List (String × Obj) :=
  [("a", .dict [("type", .typ .int), ("required", .bool true)]),
   ("b", .dict [("type", .typ .int), ("required", .bool true)])]

def c1errs : Errors :=
  [("a", .str "a is required."), ("b", .str "b is required.")]

theorem validate_raises_iff_errors_witness :
    (validateRun env0 10 c1ds true (.list []) (.dict []) =
        .validationException c1errs ↔ c1errs ≠ []) ∧
    (validateRun env0 10 c1ds true (.list []) (.dict []) = .returned ↔
        c1errs = []) :=
  validate_raises_iff_errors env0 10 c1ds true (.list []) (.dict []) c1errs rfl

/-!
## C3: null values and the nullable default rule
-/

/-- C3: `_validate_value` on a null value records a not-nullable error
at the field's path exactly when the effective `nullable` flag is
falsy, where an unset `nullable` defaults to the negation of
`required` (itself defaulting to false); the call returns immediately
either way, so no type resolution, recursion or validator runs on a
null value (the right-hand side does not consult `type` or
`validates`). -/
theorem null_value_nullable_rule (env : Env) (fuel : Nat)
    (speck : List (String × Obj)) (path : String) (errors : Errors) :
    validateGo env (fuel + 1) (.value .none (.dict speck) path errors) =
      .ok (if pyTruthy ((lookupStr speck "nullable").getD
              (.bool (!pyTruthy ((lookupStr speck "required").getD (.bool false)))))
           then errors
           else errSet errors path (.str (path ++ " is not nullable."))) := by
  simp [validateGo, pyGetAttrD]

/-!
## C2: missing required fields and dotted/indexed error paths
-/

def c2title : List (String × Obj) :=
  [("title", .dict [("type", .typ .str), ("required", .bool true)])]

def c2name : List (String × Obj) :=
  [("commenter", .dict [("type", .typ .str), ("required", .bool true)])]

def c2ds : List (String × Obj) :=
  [("content", .dict [("type", .schema c2title true (.list [])),
      ("required", .bool true)]),
   ("comments", .dict [("type", .array (.schema c2name true (.list [])))])]

def c2doc : Obj := .dict [("content", .dict []), ("comments", .list [.dict []])]

def c2errs : Errors :=
  [("content.title", .str "content.title is required."),
   ("comments.0.commenter", .str "comments.0.commenter is required.")]

/-- C2: when a declared field whose spec marks it required is absent
from the instance, the traversal records exactly the error
`"<path> is required."` at that field's path (first conjunct, for a
schema declaring the field, any instance missing it, any prefix, any
strict mode and any prior errors); paths compose by dots for nested
schemas and by appended numeric indices for array elements, so a
missing required field in a nested schema yields `content.title` and
one inside an array of nested schemas yields `comments.0.commenter`
(remaining conjuncts, on the embedded blog-like schema). -/
theorem required_missing_records_error :
    (∀ (env : Env) (fuel : Nat) (f : String) (speck : List (String × Obj))
        (strict : Bool) (svs : Obj) (kvs : List (String × Obj))
        (errors0 : Errors) (px : String) (errs : Errors),
      validateGo env fuel
          (.inst [(f, .dict speck)] strict svs (.dict kvs) errors0 px) =
        .ok errs →
      pyTruthy ((lookupStr speck "required").getD (.bool false)) = true →
      containsKey kvs f = false →
      errLookup errs (appendPath px f) =
        some (.str (appendPath px f ++ " is required."))) ∧
    (validateGo env0 30 (.inst c2ds true (.list []) c2doc [] "") = .ok c2errs ∧
     errLookup c2errs "content.title" =
       some (.str "content.title is required.") ∧
     errLookup c2errs "comments.0.commenter" =
       some (.str "comments.0.commenter is required.")) := by
  refine ⟨?_, rfl, rfl, rfl⟩
  intro env fuel f speck strict svs kvs errors0 px errs h hreq habs
  cases fuel with
  | zero => simp [validateGo] at h
  | succ fuel =>
    simp only [validateGo] at h
    cases hsv : applyValidationsObj env errors0 px svs (.dict kvs) with
    | error e => rw [hsv] at h; simp at h
    | ok e1 =>
      rw [hsv] at h
      simp only [exceptBind_ok] at h
      cases hfl : validateGo env fuel (.fields [(f, .dict speck)] kvs e1 px) with
      | error e => rw [hfl] at h; simp at h
      | ok e2 =>
        rw [hfl] at h
        simp only [exceptBind_ok, exceptPure_eq, Except.ok.injEq] at h
        cases fuel with
        | zero => simp [validateGo] at hfl
        | succ fuel2 =>
          simp only [validateGo, habs, Bool.false_eq_true, if_false,
            pyGetAttrD, exceptBind_ok, hreq, if_true] at hfl
          cases fuel2 with
          | zero => simp [validateGo] at hfl
          | succ fuel3 =>
            simp only [validateGo, exceptPure_eq, exceptBind_ok,
              Except.ok.injEq] at hfl
            subst hfl
            subst h
            have hne : ∀ kv, kv ∈ kvs → appendPath px kv.1 ≠ appendPath px f := by
              intro kv hm heq
              exact key_ne_of_not_containsKey kvs f habs kv hm
                (appendPath_right_inj px heq)
            by_cases hstrict : strict
            · rw [hstrict]
              simp only [if_true]
              rw [errLookup_strictExtras_ne _ _ _ _ _ hne,
                errLookup_errSet_self]
            · rw [if_neg hstrict, errLookup_errSet_self]

theorem required_missing_records_error_witness :
    errLookup [("x", Obj.str "x is required.")] (appendPath "" "x") =
      some (.str (appendPath "" "x" ++ " is required.")) :=
  required_missing_records_error.1 env0 10 "x"
    [("type", .typ .int), ("required", .bool true)] true (.list [])
    [] [] "" [("x", .str "x is required.")] rfl rfl rfl

/-!
## C7: dynamic-type functions
-/

/-- C7: for a non-null field value whose declared type is a function,
`_validate_value` invokes it on the value; a raise inside the function
surfaces as a `SchemaFormatException` at the field's path (first
conjunct) — not a `ValidationException`, since no error dict is
produced at all; a return value that is not a type object, `Schema` or
`Array` also raises a `SchemaFormatException` at the path (second
conjunct); and a usable return value makes validation proceed exactly
as if that returned type had been the declared type for this instance
(third conjunct). -/
theorem dynamic_type_resolution :
    (∀ (env : Env) (fuel : Nat) (fid : Nat) (v : Obj)
        (speck : List (String × Obj)) (path : String) (errors : Errors)
        (m : String),
      v ≠ Obj.none →
      lookupStr speck "type" = some (.func 1 fid) →
      env fid [v] = .raised m →
      validateGo env (fuel + 1) (.value v (.dict speck) path errors) =
        .error (.schemaFormat
          ("Dynamic schema function raised exception: " ++ m) path)) ∧
    (∀ (env : Env) (fuel : Nat) (fid : Nat) (v : Obj)
        (speck : List (String × Obj)) (path : String) (errors : Errors)
        (t : Obj),
      v ≠ Obj.none →
      lookupStr speck "type" = some (.func 1 fid) →
      env fid [v] = .ret t → usableType t = false →
      validateGo env (fuel + 1) (.value v (.dict speck) path errors) =
        .error (.schemaFormat
          "Dynamic schema function did not return a type at path {}" path)) ∧
    (∀ (env : Env) (fuel : Nat) (fid : Nat) (v : Obj)
        (speck : List (String × Obj)) (path : String) (errors : Errors)
        (t : Obj),
      v ≠ Obj.none →
      lookupStr speck "type" = some (.func 1 fid) →
      env fid [v] = .ret t → usableType t = true →
      validateGo env (fuel + 1) (.value v (.dict speck) path errors) =
        validateGo env fuel (.valueT t v (.dict speck) path errors)) := by
  refine ⟨?_, ?_, ?_⟩
  · intro env fuel fid v speck path errors m hv hty hcall
    cases v <;> first
      | exact absurd rfl hv
      | simp [validateGo, pyGetItemStr, hty, pyCall, hcall, exnStr]
  · intro env fuel fid v speck path errors t hv hty hcall husable
    cases v <;> first
      | exact absurd rfl hv
      | simp [validateGo, pyGetItemStr, hty, pyCall, hcall, husable]
  · intro env fuel fid v speck path errors t hv hty hcall husable
    cases v <;> first
      | exact absurd rfl hv
      | simp [validateGo, pyGetItemStr, hty, pyCall, hcall, husable]

def envC7 : Env := fun fid _ =>
  match fid with
  | 0 => .raised "X"
  | 1 => .ret (.int 3)
  | _ => .ret (.typ .int)

theorem dynamic_type_resolution_witness :
    (validateGo envC7 6 (.value (.int 5) (.dict [("type", .func 1 0)]) "p" []) =
      .error (.schemaFormat "Dynamic schema function raised exception: X" "p")) ∧
    (validateGo envC7 6 (.value (.int 5) (.dict [("type", .func 1 1)]) "p" []) =
      .error (.schemaFormat
        "Dynamic schema function did not return a type at path {}" "p")) ∧
    (validateGo envC7 6 (.value (.int 5) (.dict [("type", .func 1 2)]) "p" []) =
      validateGo envC7 5
        (.valueT (.typ .int) (.int 5) (.dict [("type", .func 1 2)]) "p" [])) :=
  ⟨dynamic_type_resolution.1 envC7 5 0 (.int 5) [("type", .func 1 0)] "p" [] "X"
      (by simp) rfl rfl,
   dynamic_type_resolution.2.1 envC7 5 1 (.int 5) [("type", .func 1 1)] "p" []
      (.int 3) (by simp) rfl rfl rfl,
   dynamic_type_resolution.2.2 envC7 5 2 (.int 5) [("type", .func 1 2)] "p" []
      (.typ .int) (by simp) rfl rfl rfl⟩

/-!
## C8: array element isolation
-/

/-- The specification-side fold for the array element loop over a
primitive contained type: each element failing `isinstance` contributes
exactly one error at `path.i`, and every element is visited. -/
def arrayItemErrs (p : PrimType) (path : String) :
    List Obj → Nat → Errors → Errors
  | [], _, e => e
  | item :: rest, idx, e =>
    arrayItemErrs p path rest (idx + 1)
      (if isInstPrim item p then e
       else errSet e (appendPath path (toString idx))
         (.str ("Array item at " ++ appendPath path (toString idx) ++
           " is of incorrect type")))

/-- C8: for an Array of a primitive type, the element loop never aborts
and its result is exactly the fold that records one type-mismatch
error at `path.i` for each non-conforming element index `i`, leaving
all other elements checked independently (first conjunct); a
non-sequence value produces the single "should be an embedded array"
error at the field's path with no descent into the value (second
conjunct); concretely, a list with one conforming and one
non-conforming element yields exactly one error, at index 1 (third
conjunct). -/
theorem array_element_isolation :
    (∀ (env : Env) (fuel : Nat) (p : PrimType) (items : List Obj)
        (idx : Nat) (path : String) (errors e : Errors),
      validateGo env fuel (.items (.typ p) false items idx path errors) =
        .ok e →
      e = arrayItemErrs p path items idx errors) ∧
    (∀ (env : Env) (fuel : Nat) (contained v spec : Obj) (path : String)
        (errors : Errors),
      isListObj v = false →
      validateGo env (fuel + 1) (.valueT (.array contained) v spec path errors) =
        .ok (errSet errors path (.str (path ++ " should be an embedded array")))) ∧
    (validateGo env0 10
        (.value (.list [.int 1, .str "x"])
          (.dict [("type", .array (.typ .int))]) "field" []) =
      .ok [("field.1", .str "Array item at field.1 is of incorrect type")]) := by
  refine ⟨?_, ?_, rfl⟩
  · intro env fuel p items
    induction items generalizing fuel with
    | nil =>
      intro idx path errors e h
      cases fuel with
      | zero => simp [validateGo] at h
      | succ fuel =>
        simp only [validateGo, Except.ok.injEq] at h
        simp [arrayItemErrs, ← h]
    | cons item rest ih =>
      intro idx path errors e h
      cases fuel with
      | zero => simp [validateGo] at h
      | succ fuel =>
        simp only [validateGo, Bool.false_eq_true, if_false, exceptPure_eq,
          exceptBind_ok, pyIsInstance] at h
        exact (ih fuel (idx + 1) path _ e h).trans rfl
  · intro env fuel contained v spec path errors hv
    cases v
    case list => simp [isListObj] at hv
    all_goals simp [validateGo]


/-!
## C4: `apply_defaults` shape handling
-/

def c4inner : List (String × Obj) := [("g", .dict [("type", .typ .int)])]

def c4ds : List (String × Obj) :=
  [("f", .dict [("type", .array (.schema c4inner true (.list [])))])]

/-- C4 counterexample: contrary to the claim that `apply_defaults`
never raises and silently skips any value shape that does not match the
recursion conditions, a successfully constructed schema with an
`Array(Schema)` field applied to an instance whose list value contains
a non-mapping element recurses into that element (the source recurses
into *every* element, without a dict check) and raises a `TypeError`
from `field not in instance` on the non-iterable element. -/
theorem applyDefaults_raises_on_nonmapping_element :
    schemaInit c4ds true (.list []) = .ok (.schema c4ds true (.list [])) ∧
    applyDefaultsGo env0 10 (.inst c4ds (.dict [("f", .list [.int 5])])) =
      .error (.typeError "argument of type is not iterable") :=
  ⟨rfl, rfl⟩

/-- C4 amended: `apply_defaults` silently skips a field whose value is
a non-mapping when the declared type is a nested `Schema` (first
conjunct) and a non-sequence when the declared type is an
`Array(Schema)` (second conjunct), leaving the instance unchanged and
raising nothing; but every element of a sequence value for an
`Array(Schema)` field is recursed into — non-mapping elements are not
skipped — so an exception arising from such an element propagates out
of `apply_defaults` (third conjunct). -/
theorem applyDefaults_shape_rules :
    (∀ (env : Env) (fuel : Nat) (f : String) (ids : List (String × Obj))
        (st : Bool) (vs v : Obj),
      isDictObj v = false →
      applyDefaultsGo env (fuel + 2)
          (.inst [(f, .dict [("type", .schema ids st vs)])] (.dict [(f, v)])) =
        .ok (.dict [(f, v)])) ∧
    (∀ (env : Env) (fuel : Nat) (f : String) (ids : List (String × Obj))
        (st : Bool) (vs v : Obj),
      isListObj v = false →
      applyDefaultsGo env (fuel + 2)
          (.inst [(f, .dict [("type", .array (.schema ids st vs))])]
            (.dict [(f, v)])) =
        .ok (.dict [(f, v)])) ∧
    (∀ (env : Env) (fuel : Nat) (ids : List (String × Obj))
        (st : Bool) (vs : Obj) (items : List Obj),
      applyDefaultsGo env (fuel + 2)
          (.inst [("f", .dict [("type", .array (.schema ids st vs))])]
            (.dict [("f", .list items)])) =
        (applyDefaultsGo env (fuel + 1) (.itemsD ids items)).bind
          (fun v2 => .ok (.dict [("f", v2)]))) := by
  refine ⟨?_, ?_, ?_⟩
  · intro env fuel f ids st vs v hv
    cases v
    case dict => simp [isDictObj] at hv
    all_goals
      simp [applyDefaultsGo, defaultStep, recKind, pyGetItemStr, pyContains,
        containsKey, lookupStr]
  · intro env fuel f ids st vs v hv
    cases v
    case list => simp [isListObj] at hv
    all_goals
      simp [applyDefaultsGo, defaultStep, recKind, pyGetItemStr, pyContains,
        containsKey, lookupStr]
  · intro env fuel ids st vs items
    rfl

theorem applyDefaults_shape_rules_witness :
    (applyDefaultsGo env0 7
        (.inst [("f", .dict [("type", .schema [] true (.list []))])]
          (.dict [("f", .int 3)])) =
      .ok (.dict [("f", .int 3)])) ∧
    (applyDefaultsGo env0 7
        (.inst [("f", .dict [("type", .array (.schema [] true (.list [])))])]
          (.dict [("f", .int 3)])) =
      .ok (.dict [("f", .int 3)])) ∧
    (applyDefaultsGo env0 9
        (.inst [("f", .dict [("type", .array (.schema c4inner true (.list [])))])]
          (.dict [("f", .list [.int 5])])) =
      (applyDefaultsGo env0 8 (.itemsD c4inner [.int 5])).bind
        (fun v2 => .ok (.dict [("f", v2)]))) :=
  ⟨applyDefaults_shape_rules.1 env0 5 "f" [] true (.list []) (.int 3) rfl,
   applyDefaults_shape_rules.2.1 env0 5 "f" [] true (.list []) (.int 3) rfl,
   applyDefaults_shape_rules.2.2 env0 7 c4inner true (.list []) [.int 5]⟩

/-!
## C5: when field-level validators run, and last-message-wins
-/

def envB : Env := fun _ _ => .ret (.str "boom")

def c5spec : Obj := .dict [("type", .array (.typ .int)), ("validates", .func 1 0)]

def c5ds : List (String × Obj) := [("tags", c5spec)]

/-- C5 counterexample: contrary to the claim that `validates` is
applied only when the effective type is a non-nested, non-array value,
an `Array(int)` field with a `validates` entry is accepted at
construction, and validating a conforming (empty) list invokes the
validator and records its message at the field's path — the validator
did run for an Array-typed field. -/
theorem validators_run_for_array_field :
    schemaInit c5ds true (.list []) = .ok (.schema c5ds true (.list [])) ∧
    validateRun envB 10 c5ds true (.list []) (.dict [("tags", .list [])]) =
      .validationException [("tags", .str "boom")] :=
  ⟨rfl, rfl⟩

/-- The specification-side fold for `_apply_validations` on a list of
validators: the surviving message at the path after the run is the
last truthy validator result, or the previously recorded one if no
validator returned a truthy message. -/
def lastTruthy (env : Env) (v : Obj) : List Obj → Option Obj → Option Obj
  | [], acc => acc
  | fn :: fns, acc =>
    match pyCall env fn [v] with
    | .ok r => lastTruthy env v fns (if pyTruthy r then some r else acc)
    | .error _ => acc

/-- C5 amended: field-level validators never run when the effective
type is a `Schema` — a dict value recurses into the nested schema and
any other value records only the embedded-document error (first two
conjuncts); for an `Array` type with a list value the element loop runs
and then the field's `validates` entry *is* applied to the list value
(third conjunct); for a primitive type validators run exactly when the
`isinstance` check passes: when it passes `_apply_validations` runs
(fourth conjunct), and when it fails the call returns with only the
type-mismatch error recorded at the field's path and no validator
invoked — the result is independent of the `validates` entry and of
the function environment (fifth conjunct); and when a list of
validators runs, they run in declared order, each truthy message
overwriting the previous one at exactly the field's path, so the last
truthy message survives (sixth conjunct) and entries at every other
path are untouched (seventh conjunct). -/
theorem validators_application_rules :
    (∀ (env : Env) (fuel : Nat) (ids : List (String × Obj)) (st : Bool)
        (vs v spec : Obj) (path : String) (errors : Errors),
      isDictObj v = true →
      validateGo env (fuel + 1) (.valueT (.schema ids st vs) v spec path errors) =
        validateGo env fuel (.inst ids st vs v errors path)) ∧
    (∀ (env : Env) (fuel : Nat) (ids : List (String × Obj)) (st : Bool)
        (vs v spec : Obj) (path : String) (errors : Errors),
      isDictObj v = false →
      validateGo env (fuel + 1) (.valueT (.schema ids st vs) v spec path errors) =
        .ok (errSet errors path (.str (path ++ " should be an embedded document")))) ∧
    (∀ (env : Env) (fuel : Nat) (contained : Obj) (items : List Obj)
        (spec : Obj) (path : String) (errors : Errors),
      validateGo env (fuel + 1)
          (.valueT (.array contained) (.list items) spec path errors) =
        (validateGo env fuel
            (.items contained (isFuncObj contained) items 0 path errors) >>=
          fun e1 => runValidates env spec (.list items) path e1)) ∧
    (∀ (env : Env) (fuel : Nat) (p : PrimType) (v spec : Obj) (path : String)
        (errors : Errors),
      isInstPrim v p = true →
      validateGo env (fuel + 1) (.valueT (.typ p) v spec path errors) =
        runValidates env spec v path errors) ∧
    (∀ (env : Env) (fuel : Nat) (p : PrimType) (v spec : Obj) (path : String)
        (errors : Errors),
      isInstPrim v p = false →
      validateGo env (fuel + 1) (.valueT (.typ p) v spec path errors) =
        .ok (errSet errors path
          (.str ("Field should be of type " ++ typeRepr (.typ p))))) ∧
    (∀ (env : Env) (fns : List Obj) (v : Obj) (path : String)
        (errors e2 : Errors),
      applyValidationsObj env errors path (.list fns) v = .ok e2 →
      errLookup e2 path = lastTruthy env v fns (errLookup errors path)) ∧
    (∀ (env : Env) (fns : List Obj) (v : Obj) (path q : String)
        (errors e2 : Errors),
      q ≠ path →
      applyValidationsObj env errors path (.list fns) v = .ok e2 →
      errLookup e2 q = errLookup errors q) := by
  refine ⟨?_, ?_, ?_, ?_, ?_, ?_, ?_⟩
  · intro env fuel ids st vs v spec path errors hv
    cases v
    case dict => rfl
    all_goals simp [isDictObj] at hv
  · intro env fuel ids st vs v spec path errors hv
    cases v
    case dict => simp [isDictObj] at hv
    all_goals simp [validateGo]
  · intro env fuel contained items spec path errors
    rfl
  · intro env fuel p v spec path errors hinst
    simp [validateGo, pyIsInstance, hinst]
  · intro env fuel p v spec path errors hinst
    simp [validateGo, pyIsInstance, hinst]
  · intro env fns v path errors e2 h
    induction fns generalizing errors with
    | nil =>
      simp only [applyValidationsObj, List.foldlM_nil, exceptPure_eq,
        Except.ok.injEq] at h
      simp [lastTruthy, ← h]
    | cons fn fns ih =>
      simp only [applyValidationsObj, List.foldlM_cons] at h ih
      cases hc : pyCall env fn [v] with
      | error e => simp [applyOne, hc] at h
      | ok r =>
        simp only [applyOne, hc, exceptBind_ok, exceptPure_eq] at h
        have := ih _ h
        rw [this]
        simp only [lastTruthy, hc]
        by_cases hr : pyTruthy r
        · simp [hr]
        · simp [hr]
  · intro env fns v path q errors e2 hq h
    induction fns generalizing errors with
    | nil =>
      simp only [applyValidationsObj, List.foldlM_nil, exceptPure_eq,
        Except.ok.injEq] at h
      rw [← h]
    | cons fn fns ih =>
      simp only [applyValidationsObj, List.foldlM_cons] at h ih
      cases hc : pyCall env fn [v] with
      | error e => simp [applyOne, hc] at h
      | ok r =>
        simp only [applyOne, hc, exceptBind_ok, exceptPure_eq] at h
        rw [ih _ h]
        by_cases hr : pyTruthy r
        · simp only [hr, if_true]
          exact errLookup_errSet_ne _ _ _ _ hq
        · simp [hr]

theorem validators_application_rules_witness :
    (validateGo env0 4
        (.valueT (.schema [] true (.list [])) (.dict [("z", .int 1)])
          (.dict []) "p" []) =
      validateGo env0 3
        (.inst [] true (.list []) (.dict [("z", .int 1)]) [] "p")) ∧
    (validateGo env0 4
        (.valueT (.schema [] true (.list [])) (.int 9) (.dict []) "p" []) =
      .ok (errSet [] "p" (.str "p should be an embedded document"))) ∧
    (validateGo envB 4 (.valueT (.typ .int) (.int 9) c5spec "p" []) =
      runValidates envB c5spec (.int 9) "p" []) ∧
    (validateGo env0 4 (.valueT (.typ .int) (.str "x") c5spec "p" []) =
      .ok (errSet [] "p"
        (.str ("Field should be of type " ++ typeRepr (.typ .int))))) ∧
    (errLookup [("p", Obj.str "boom")] "p" =
      lastTruthy envB (.int 9) [.func 1 0] (errLookup [] "p")) ∧
    (errLookup [("q", Obj.str "old"), ("p", Obj.str "boom")] "q" =
      errLookup [("q", Obj.str "old")] "q") :=
  ⟨validators_application_rules.1 env0 3 [] true (.list [])
      (.dict [("z", .int 1)]) (.dict []) "p" [] rfl,
   validators_application_rules.2.1 env0 3 [] true (.list []) (.int 9)
      (.dict []) "p" [] rfl,
   validators_application_rules.2.2.2.1 envB 3 .int (.int 9) c5spec "p" [] rfl,
   validators_application_rules.2.2.2.2.1 env0 3 .int (.str "x") c5spec "p" []
      rfl,
   validators_application_rules.2.2.2.2.2.1 envB [.func 1 0] (.int 9) "p" []
      [("p", .str "boom")] rfl,
   validators_application_rules.2.2.2.2.2.2 envB [.func 1 0] (.int 9) "p" "q"
      [("q", .str "old")] [("q", .str "old"), ("p", .str "boom")]
      (by simp) rfl⟩

theorem array_element_isolation_witness :
    ([("field.1", Obj.str "Array item at field.1 is of incorrect type")] =
      arrayItemErrs .int "field" [.int 1, .str "x"] 0 []) ∧
    (validateGo env0 4
        (.valueT (.array (.typ .int)) (.int 7) (.dict []) "field" []) =
      .ok (errSet [] "field" (.str "field should be an embedded array"))) :=
  ⟨array_element_isolation.1 env0 10 .int [.int 1, .str "x"] 0 "field" []
      [("field.1", .str "Array item at field.1 is of incorrect type")] rfl,
   array_element_isolation.2.1 env0 3 (.typ .int) (.int 7) (.dict [])
      "field" [] rfl⟩

/-!
## C6: `apply_defaults` mutates the schema's stored default object
-/

def c6inner : List (String × HSpecT) := [("g", HSpecT.prim (some (.hint 0)))]

def c6outer : List (String × HSpecT) := [("f", HSpecT.nested c6inner (some (.ref 100)))]

def c6heap : Heap := [(100, .hdict []), (1, .hdict [])]

/-- C6 divergence witness: a schema with one field `f`, typed as a
nested schema `{'g': {'type': int, 'default': 0}}` and carrying the
non-callable default `{}` — the dict object at heap address 100, which
is the very object stored inside the schema's field spec
(`c6outer` holds `ref 100`).  Applying defaults to the empty instance
at address 1 assigns that object into the instance by reference and
then recurses into it, so afterwards the schema's own stored default
object at address 100 has become `{'g': 0}`, although it was `{}`
before the call: `apply_defaults` mutated the Schema's field-spec
data, not only the caller-supplied instance. -/
theorem apply_defaults_mutates_schema_default :
    heapGet c6heap 100 = some (.hdict []) ∧
    applyDefaultsH 10 c6outer 1 c6heap =
      .ok [(100, .hdict [("g", .hint 0)]), (1, .hdict [("f", .ref 100)])] ∧
    heapGet [(100, HObj.hdict [("g", .hint 0)]), (1, .hdict [("f", .ref 100)])]
        100 = some (.hdict [("g", .hint 0)]) :=
  ⟨rfl, rfl, rfl⟩

/-!
## C9: eager schema self-verification
-/

/-- C9: `Schema.__init__` eagerly verifies every field spec and raises
a `SchemaFormatException` carrying the offending field's (dotted) path,
before any instance is validated, in each of the claimed situations:
a field spec that is not a mapping; a spec with no `type` entry (with
`required`/`nullable` absent or boolean, so the earlier checks pass);
a non-boolean `required`; a non-boolean `nullable` (with `required`
absent or boolean); a spec key outside the allowed set; a `validates`
entry that is neither callable nor a validator list, a validator list
containing a non-callable entry, and a function validator whose arity
is not one; and a non-callable default whose value does not match the
declared type, both for a primitive type and for a nested-`Schema`
type. -/
theorem schema_verification_rejections :
    (∀ (f : String) (x : Obj) (strict : Bool) (vs : Obj),
      isDictObj x = false →
      schemaInit [(f, x)] strict vs =
        .error (.schemaFormat "Invalid field definition for {}" f)) ∧
    (∀ (f : String) (speck : List (String × Obj)) (strict : Bool) (vs : Obj),
      lookupStr speck "type" = Option.none →
      (lookupStr speck "required" = Option.none ∨
        ∃ b, lookupStr speck "required" = some (.bool b)) →
      (lookupStr speck "nullable" = Option.none ∨
        ∃ b, lookupStr speck "nullable" = some (.bool b)) →
      schemaInit [(f, .dict speck)] strict vs =
        .error (.schemaFormat "{} has no type declared." f)) ∧
    (∀ (f : String) (speck : List (String × Obj)) (strict : Bool) (vs r : Obj),
      lookupStr speck "required" = some r →
      (∀ b, r ≠ .bool b) →
      schemaInit [(f, .dict speck)] strict vs =
        .error (.schemaFormat "{} required declaration should be True or False" f)) ∧
    (∀ (f : String) (speck : List (String × Obj)) (strict : Bool) (vs r : Obj),
      (lookupStr speck "required" = Option.none ∨
        ∃ b, lookupStr speck "required" = some (.bool b)) →
      lookupStr speck "nullable" = some r →
      (∀ b, r ≠ .bool b) →
      schemaInit [(f, .dict speck)] strict vs =
        .error (.schemaFormat "{} nullable declaration should be True or False" f)) ∧
    (∀ (f k : String) (x : Obj) (p : PrimType) (strict : Bool) (vs : Obj),
      k ≠ "type" → k ≠ "required" → k ≠ "nullable" → k ≠ "validates" →
      k ≠ "default" →
      schemaInit [(f, .dict [("type", .typ p), (k, x)])] strict vs =
        .error (.schemaFormat
          ("Unsupported field spec item at {}. Items: " ++
            reprKeys [("type", .typ p), (k, x)]) f)) ∧
    (∀ (f : String) (p : PrimType) (nv : Obj) (strict : Bool) (vs : Obj),
      pyCallable nv = false → isListObj nv = false →
      schemaInit [(f, .dict [("type", .typ p), ("validates", nv)])] strict vs =
        .error (.schemaFormat "Invalid validations for {}" f)) ∧
    (∀ (f : String) (p : PrimType) (nv : Obj) (strict : Bool) (vs : Obj),
      pyCallable nv = false →
      schemaInit [(f, .dict [("type", .typ p), ("validates", .list [nv])])]
          strict vs =
        .error (.schemaFormat "Invalid validations for {}" f)) ∧
    (∀ (f : String) (p : PrimType) (a i : Nat) (strict : Bool) (vs : Obj),
      a ≠ 1 →
      schemaInit [(f, .dict [("type", .typ p), ("validates", .func a i)])]
          strict vs =
        .error (.schemaFormat "Invalid validations for {}" f)) ∧
    (∀ (f : String) (p : PrimType) (d : Obj) (strict : Bool) (vs : Obj),
      pyCallable d = false → isInstPrim d p = false →
      schemaInit [(f, .dict [("type", .typ p), ("default", d)])] strict vs =
        .error (.schemaFormat
          "Default value for {} is not of the nominated type." f)) ∧
    (∀ (f : String) (ids : List (String × Obj)) (st2 : Bool) (vs2 d : Obj)
        (strict : Bool) (vs : Obj),
      pyCallable d = false → isDictObj d = false →
      schemaInit [(f, .dict [("type", .schema ids st2 vs2), ("default", d)])]
          strict vs =
        .error (.schemaFormat "Default value for Schema is not valid." f)) := by
  refine ⟨?_, ?_, ?_, ?_, ?_, ?_, ?_, ?_, ?_, ?_⟩
  · intro f x strict vs hx
    cases x
    case dict => simp [isDictObj] at hx
    all_goals simp [schemaInit, verifyDocSpec, appendPath]
  · intro f speck strict vs hty hreq hnul
    rcases hreq with h1 | ⟨b1, h1⟩ <;> rcases hnul with h2 | ⟨b2, h2⟩ <;>
      simp [schemaInit, verifyDocSpec, verifyFieldSpec, containsKey, h1, h2,
        hty, appendPath]
  · intro f speck strict vs r hreq hnb
    cases r
    case bool b => exact absurd rfl (hnb b)
    all_goals
      simp [schemaInit, verifyDocSpec, verifyFieldSpec, hreq, appendPath]
  · intro f speck strict vs r hreq hnul hnb
    cases r
    case bool b => exact absurd rfl (hnb b)
    all_goals
      rcases hreq with h1 | ⟨b1, h1⟩ <;>
        simp [schemaInit, verifyDocSpec, verifyFieldSpec, h1, hnul, appendPath]
  · intro f k x p strict vs h1 h2 h3 h4 h5
    have hc : allowedKeys.contains k = false := by
      simp [allowedKeys, h1, h2, h3, h4, h5]
    simp [schemaInit, verifyDocSpec, verifyFieldSpec, verifyType, containsKey,
      lookupStr, keysSubset, appendPath, h1, h2, h3, h4, h5,
      Ne.symm h1, Ne.symm h2, Ne.symm h3, Ne.symm h4, Ne.symm h5, hc,
      allowedKeys, schemaAllowedKeys]
  · intro f p nv strict vs hcall hlist
    cases nv <;>
      simp_all [schemaInit, verifyDocSpec, verifyFieldSpec, verifyType,
        verifyValidates, verifyValidator, containsKey, lookupStr, appendPath,
        pyCallable, isListObj]
  · intro f p nv strict vs hcall
    cases nv <;>
      simp_all [schemaInit, verifyDocSpec, verifyFieldSpec, verifyType,
        verifyValidates, verifyValidator, containsKey, lookupStr, appendPath,
        pyCallable]
  · intro f p a i strict vs ha
    simp [schemaInit, verifyDocSpec, verifyFieldSpec, verifyType,
      verifyValidates, verifyValidator, containsKey, lookupStr, appendPath,
      pyCallable, ha]
  · intro f p d strict vs hcall hinst
    simp [schemaInit, verifyDocSpec, verifyFieldSpec, verifyType, verifyDefault,
      pyIsInstance, containsKey, lookupStr, appendPath, hcall, hinst,
      keysSubset, allowedKeys]
  · intro f ids st2 vs2 d strict vs hcall hdict
    simp [schemaInit, verifyDocSpec, verifyFieldSpec, verifyType, verifyDefault,
      validSchemaDefault, containsKey, lookupStr, appendPath, hcall, hdict,
      keysSubset, allowedKeys, schemaAllowedKeys]
    cases d <;> simp_all [validSchemaDefault, isDictObj, pyCallable]

theorem schema_verification_rejections_witness :
    (schemaInit [("author", .int 45)] true (.list []) =
      .error (.schemaFormat "Invalid field definition for {}" "author")) ∧
    (schemaInit [("author", .dict [])] true (.list []) =
      .error (.schemaFormat "{} has no type declared." "author")) ∧
    (schemaInit [("author", .dict [("type", .typ .int), ("required", .int 23)])]
        true (.list []) =
      .error (.schemaFormat
        "{} required declaration should be True or False" "author")) ∧
    (schemaInit [("author", .dict [("type", .typ .int), ("nullable", .int 23)])]
        true (.list []) =
      .error (.schemaFormat
        "{} nullable declaration should be True or False" "author")) ∧
    (schemaInit [("somefield", .dict [("type", .typ .int), ("something", .str "wrong")])]
        true (.list []) =
      .error (.schemaFormat
        ("Unsupported field spec item at {}. Items: " ++
          reprKeys [("type", .typ .int), ("something", .str "wrong")])
        "somefield")) ∧
    (schemaInit [("some_field", .dict [("type", .typ .int), ("validates", .str "wrong")])]
        true (.list []) =
      .error (.schemaFormat "Invalid validations for {}" "some_field")) ∧
    (schemaInit [("some_field", .dict [("type", .typ .int), ("validates", .list [.str "wrong"])])]
        true (.list []) =
      .error (.schemaFormat "Invalid validations for {}" "some_field")) ∧
    (schemaInit [("some_field", .dict [("type", .typ .int), ("validates", .func 0 0)])]
        true (.list []) =
      .error (.schemaFormat "Invalid validations for {}" "some_field")) ∧
    (schemaInit [("num_wheels", .dict [("type", .typ .int), ("default", .str "wrong")])]
        true (.list []) =
      .error (.schemaFormat
        "Default value for {} is not of the nominated type." "num_wheels")) ∧
    (schemaInit [("wheel", .dict [("type", .schema [] true (.list [])), ("default", .str "wrong")])]
        true (.list []) =
      .error (.schemaFormat "Default value for Schema is not valid." "wheel")) :=
  ⟨schema_verification_rejections.1 "author" (.int 45) true (.list []) rfl,
   schema_verification_rejections.2.1 "author" [] true (.list []) rfl
      (Or.inl rfl) (Or.inl rfl),
   schema_verification_rejections.2.2.1 "author"
      [("type", .typ .int), ("required", .int 23)] true (.list []) (.int 23)
      rfl (by intro b h; cases h),
   schema_verification_rejections.2.2.2.1 "author"
      [("type", .typ .int), ("nullable", .int 23)] true (.list []) (.int 23)
      (Or.inl rfl) rfl (by intro b h; cases h),
   schema_verification_rejections.2.2.2.2.1 "somefield" "something"
      (.str "wrong") .int true (.list [])
      (by decide) (by decide) (by decide) (by decide) (by decide),
   schema_verification_rejections.2.2.2.2.2.1 "some_field" .int (.str "wrong")
      true (.list []) rfl rfl,
   schema_verification_rejections.2.2.2.2.2.2.1 "some_field" .int (.str "wrong")
      true (.list []) rfl,
   schema_verification_rejections.2.2.2.2.2.2.2.1 "some_field" .int 0 0
      true (.list []) (by decide),
   schema_verification_rejections.2.2.2.2.2.2.2.2.1 "num_wheels" .int
      (.str "wrong") true (.list []) rfl rfl,
   schema_verification_rejections.2.2.2.2.2.2.2.2.2 "wheel" [] true (.list [])
      (.str "wrong") true (.list []) rfl rfl⟩

/-!
## C10: idempotence of `apply_defaults`

The proof works over `applyDefaultsGo` with single-step unfolding
lemmas, shape- and frame-preservation lemmas, and a well-formedness
predicate ruling out duplicate field names (Python dicts cannot contain
duplicate keys, so every doc spec built from a real `dict` satisfies
it). -/

theorem applyDefaultsGo_zero (env : Env) (c : DCall) :
    applyDefaultsGo env 0 c = .error .maxRecursion := rfl

theorem applyDefaultsGo_inst_nil (env : Env) (fuel : Nat) (doc : Obj) :
    applyDefaultsGo env (fuel + 1) (.inst [] doc) = .ok doc := rfl

theorem applyDefaultsGo_inst_cons (env : Env) (fuel : Nat) (f : String)
    (spec : Obj) (ds : List (String × Obj)) (doc : Obj) :
    applyDefaultsGo env (fuel + 1) (.inst ((f, spec) :: ds) doc) = (do
      let ft ← pyGetItemStr spec "type"
      let doc1 ← defaultStep env spec doc f
      let c2 ← pyContains doc1 f
      if c2 then do
        let value ← pyGetItemStr doc1 f
        match recKind ft value with
        | .schemaRec ids => do
          let v2 ← applyDefaultsGo env fuel (.inst ids value)
          let doc2 ← pySetItemStr doc1 f v2
          applyDefaultsGo env fuel (.inst ds doc2)
        | .arrayRec ids items => do
          let v2 ← applyDefaultsGo env fuel (.itemsD ids items)
          let doc2 ← pySetItemStr doc1 f v2
          applyDefaultsGo env fuel (.inst ds doc2)
        | .skip => applyDefaultsGo env fuel (.inst ds doc1)
      else applyDefaultsGo env fuel (.inst ds doc1)) := rfl

theorem applyDefaultsGo_itemsD_nil (env : Env) (fuel : Nat)
    (ids : List (String × Obj)) :
    applyDefaultsGo env (fuel + 1) (.itemsD ids []) = .ok (.list []) := rfl

theorem applyDefaultsGo_itemsD_cons (env : Env) (fuel : Nat)
    (ids : List (String × Obj)) (item : Obj) (rest : List Obj) :
    applyDefaultsGo env (fuel + 1) (.itemsD ids (item :: rest)) = (do
      let item2 ← applyDefaultsGo env fuel (.inst ids item)
      let rest2 ← applyDefaultsGo env fuel (.itemsD ids rest)
      match rest2 with
      | .list l => .ok (.list (item2 :: l))
      | _ => .error (.typeError "internal: itemsD returned a non-list")) := rfl

theorem containsKey_dictSet_self (l : List (String × Obj)) (k : String)
    (v : Obj) : containsKey (dictSet l k v) k = true := by
  simp [containsKey]

theorem containsKey_dictSet_ne (l : List (String × Obj)) (k k' : String)
    (v : Obj) (h : k' ≠ k) :
    containsKey (dictSet l k v) k' = containsKey l k' := by
  simp [containsKey, lookupStr_dictSet_ne l k k' v h]

theorem pySetItemStr_ok {doc : Obj} {f : String} {v doc2 : Obj}
    (h : pySetItemStr doc f v = .ok doc2) :
    ∃ kvs, doc = .dict kvs ∧ doc2 = .dict (dictSet kvs f v) := by
  cases doc with
  | dict kvs =>
    simp only [pySetItemStr, Except.ok.injEq] at h
    exact ⟨kvs, rfl, h.symm⟩
  | none => simp [pySetItemStr] at h
  | int n => simp [pySetItemStr] at h
  | str s => simp [pySetItemStr] at h
  | bool b => simp [pySetItemStr] at h
  | list l => simp [pySetItemStr] at h
  | typ p => simp [pySetItemStr] at h
  | array c => simp [pySetItemStr] at h
  | schema a b c => simp [pySetItemStr] at h
  | func a i => simp [pySetItemStr] at h

theorem pyGetItemStr_ok {doc : Obj} {f : String} {v : Obj}
    (h : pyGetItemStr doc f = .ok v) :
    ∃ kvs, doc = .dict kvs ∧ lookupStr kvs f = some v := by
  cases doc with
  | dict kvs =>
    refine ⟨kvs, rfl, ?_⟩
    cases hl : lookupStr kvs f with
    | some w => simp [pyGetItemStr, hl] at h; rw [h]
    | none => simp [pyGetItemStr, hl] at h
  | none => simp [pyGetItemStr] at h
  | int n => simp [pyGetItemStr] at h
  | str s => simp [pyGetItemStr] at h
  | bool b => simp [pyGetItemStr] at h
  | list l => simp [pyGetItemStr] at h
  | typ p => simp [pyGetItemStr] at h
  | array c => simp [pyGetItemStr] at h
  | schema a b c => simp [pyGetItemStr] at h
  | func a i => simp [pyGetItemStr] at h

theorem defaultStep_of_contains_true (env : Env) (spec doc : Obj) (f : String)
    (h : pyContains doc f = .ok true) :
    defaultStep env spec doc f = .ok doc := by
  unfold defaultStep
  rw [h]
  simp

theorem defaultStep_of_absent_no_default (env : Env) (spec doc : Obj)
    (f : String) (h : pyContains doc f = .ok false)
    (h2 : pyContains spec "default" = .ok false) :
    defaultStep env spec doc f = .ok doc := by
  unfold defaultStep
  rw [h]
  simp [h2]

theorem defaultStep_shape (env : Env) (spec doc : Obj) (f : String)
    (doc1 : Obj) (h : defaultStep env spec doc f = .ok doc1) :
    isDictObj doc1 = isDictObj doc ∧ (isDictObj doc = false → doc1 = doc) := by
  unfold defaultStep at h
  cases hc1 : pyContains doc f with
  | error e => rw [hc1] at h; simp at h
  | ok c1 =>
    rw [hc1] at h; simp only [exceptBind_ok] at h
    by_cases hb : c1 = true
    · rw [hb] at h; simp at h
      exact ⟨by rw [h], fun _ => h.symm⟩
    · rw [eq_comm] at hb
      simp only [if_neg (Ne.symm hb)] at h
      cases hhd : pyContains spec "default" with
      | error e => rw [hhd] at h; simp at h
      | ok hasD =>
        rw [hhd] at h; simp only [exceptBind_ok] at h
        by_cases hd : hasD = true
        · rw [hd] at h; simp only [if_true] at h
          cases hdf : pyGetItemStr spec "default" with
          | error e => rw [hdf] at h; simp at h
          | ok dflt =>
            rw [hdf] at h; simp only [exceptBind_ok] at h
            by_cases hcall : pyCallable dflt = true
            · rw [hcall] at h; simp only [if_true] at h
              cases hcv : pyCall env dflt [] with
              | error e => rw [hcv] at h; simp at h
              | ok dv =>
                rw [hcv] at h; simp only [exceptBind_ok] at h
                obtain ⟨kvs, hdoc, hdoc1⟩ := pySetItemStr_ok h
                subst hdoc; subst hdoc1
                exact ⟨rfl, by intro hfalse; simp [isDictObj] at hfalse⟩
            · simp only [hcall, if_false, exceptPure_eq, exceptBind_ok] at h
              obtain ⟨kvs, hdoc, hdoc1⟩ := pySetItemStr_ok h
              subst hdoc; subst hdoc1
              exact ⟨rfl, by intro hfalse; simp [isDictObj] at hfalse⟩
        · rw [eq_comm] at hd
          simp only [if_neg (Ne.symm hd)] at h
          simp at h
          exact ⟨by rw [h], fun _ => h.symm⟩

theorem defaultStep_frame (env : Env) (spec doc : Obj) (g f : String)
    (doc1 : Obj) (hne : g ≠ f) (h : defaultStep env spec doc g = .ok doc1) :
    pyContains doc1 f = pyContains doc f ∧
    pyGetItemStr doc1 f = pyGetItemStr doc f := by
  unfold defaultStep at h
  cases hc1 : pyContains doc g with
  | error e => rw [hc1] at h; simp at h
  | ok c1 =>
    rw [hc1] at h; simp only [exceptBind_ok] at h
    by_cases hb : c1 = true
    · rw [hb] at h; simp at h
      rw [h]
      exact ⟨rfl, rfl⟩
    · rw [eq_comm] at hb
      simp only [if_neg (Ne.symm hb)] at h
      cases hhd : pyContains spec "default" with
      | error e => rw [hhd] at h; simp at h
      | ok hasD =>
        rw [hhd] at h; simp only [exceptBind_ok] at h
        by_cases hd : hasD = true
        · rw [hd] at h; simp only [if_true] at h
          cases hdf : pyGetItemStr spec "default" with
          | error e => rw [hdf] at h; simp at h
          | ok dflt =>
            rw [hdf] at h; simp only [exceptBind_ok] at h
            have hset : ∀ dv doc1, pySetItemStr doc g dv = .ok doc1 →
                pyContains doc1 f = pyContains doc f ∧
                pyGetItemStr doc1 f = pyGetItemStr doc f := by
              intro dv doc1 hs
              obtain ⟨kvs, hdoc, hdoc1⟩ := pySetItemStr_ok hs
              subst hdoc; subst hdoc1
              constructor
              · simp [pyContains, containsKey_dictSet_ne kvs g f dv
                  (fun hh => hne hh.symm)]
              · simp [pyGetItemStr, lookupStr_dictSet_ne kvs g f dv
                  (fun hh => hne hh.symm)]
            by_cases hcall : pyCallable dflt = true
            · rw [hcall] at h; simp only [if_true] at h
              cases hcv : pyCall env dflt [] with
              | error e => rw [hcv] at h; simp at h
              | ok dv =>
                rw [hcv] at h; simp only [exceptBind_ok] at h
                exact hset dv doc1 h
            · simp only [hcall, if_false, exceptPure_eq, exceptBind_ok] at h
              exact hset dflt doc1 h
        · rw [eq_comm] at hd
          simp only [if_neg (Ne.symm hd)] at h
          simp at h
          rw [h]
          exact ⟨rfl, rfl⟩

theorem defaultStep_no_insert (env : Env) (spec doc : Obj) (f : String)
    (doc1 : Obj) (h : defaultStep env spec doc f = .ok doc1)
    (h2 : pyContains doc1 f = .ok false) :
    doc1 = doc ∧ pyContains doc f = .ok false ∧
      pyContains spec "default" = .ok false := by
  unfold defaultStep at h
  cases hc1 : pyContains doc f with
  | error e => rw [hc1] at h; simp at h
  | ok c1 =>
    rw [hc1] at h; simp only [exceptBind_ok] at h
    cases c1 with
    | true =>
      simp at h
      exfalso
      rw [h] at hc1
      rw [hc1] at h2
      simp at h2
    | false =>
      simp only [Bool.false_eq_true, if_false] at h
      cases hhd : pyContains spec "default" with
      | error e => rw [hhd] at h; simp at h
      | ok hasD =>
        rw [hhd] at h; simp only [exceptBind_ok] at h
        cases hasD with
        | true =>
          simp only [if_true] at h
          exfalso
          cases hdf : pyGetItemStr spec "default" with
          | error e => rw [hdf] at h; simp at h
          | ok dflt =>
            rw [hdf] at h; simp only [exceptBind_ok] at h
            have hset : ∀ dv, pySetItemStr doc f dv = .ok doc1 → False := by
              intro dv hs
              obtain ⟨kvs, hdoc, hdoc1⟩ := pySetItemStr_ok hs
              subst hdoc; subst hdoc1
              simp [pyContains, containsKey_dictSet_self] at h2
            by_cases hcall : pyCallable dflt = true
            · rw [hcall] at h; simp only [if_true] at h
              cases hcv : pyCall env dflt [] with
              | error e => rw [hcv] at h; simp at h
              | ok dv =>
                rw [hcv] at h; simp only [exceptBind_ok] at h
                exact hset dv h
            · simp only [hcall, if_false, exceptPure_eq, exceptBind_ok] at h
              exact hset dflt h
        | false =>
          simp only [Bool.false_eq_true, if_false] at h
          simp at h
          exact ⟨h.symm, rfl, rfl⟩

theorem recKind_schemaRec_inv {ft value : Obj} {ids : List (String × Obj)}
    (h : recKind ft value = .schemaRec ids) :
    (∃ st vs, ft = .schema ids st vs) ∧ ∃ kvs, value = .dict kvs := by
  cases ft <;> cases value <;> simp [recKind] at h
  case schema.dict a b c kvs =>
    obtain rfl := h
    exact ⟨⟨b, c, rfl⟩, ⟨kvs, rfl⟩⟩
  case array.list contained items =>
    cases contained <;> simp [recKind] at h

theorem recKind_arrayRec_inv {ft value : Obj} {ids : List (String × Obj)}
    {items : List Obj} (h : recKind ft value = .arrayRec ids items) :
    (∃ st vs, ft = .array (.schema ids st vs)) ∧ value = .list items := by
  cases ft <;> cases value <;> simp [recKind] at h
  case array.list contained items2 =>
    cases contained <;> simp [recKind] at h
    case schema a b c =>
      obtain ⟨rfl, rfl⟩ := h
      exact ⟨⟨b, c, rfl⟩, rfl⟩

theorem applyDefaultsGo_itemsD_shape (env : Env) (fuel : Nat)
    (ids : List (String × Obj)) (items : List Obj) (y : Obj)
    (h : applyDefaultsGo env fuel (.itemsD ids items) = .ok y) :
    ∃ l, y = .list l := by
  cases fuel with
  | zero => rw [applyDefaultsGo_zero] at h; simp at h
  | succ fuel =>
    cases items with
    | nil =>
      rw [applyDefaultsGo_itemsD_nil] at h
      exact ⟨[], by simpa using h.symm⟩
    | cons item rest =>
      rw [applyDefaultsGo_itemsD_cons] at h
      cases h1 : applyDefaultsGo env fuel (.inst ids item) with
      | error e => rw [h1] at h; simp at h
      | ok item2 =>
        rw [h1] at h; simp only [exceptBind_ok] at h
        cases h2 : applyDefaultsGo env fuel (.itemsD ids rest) with
        | error e => rw [h2] at h; simp at h
        | ok rest2 =>
          rw [h2] at h; simp only [exceptBind_ok] at h
          cases rest2 <;> simp at h
          case list l => exact ⟨item2 :: l, h.symm⟩

theorem applyDefaultsGo_inst_shape (env : Env) :
    ∀ (fuel : Nat) (ds : List (String × Obj)) (x y : Obj),
      applyDefaultsGo env fuel (.inst ds x) = .ok y →
      isDictObj y = isDictObj x ∧ (isDictObj x = false → y = x) := by
  intro fuel
  induction fuel with
  | zero => intro ds x y h; rw [applyDefaultsGo_zero] at h; simp at h
  | succ fuel ih =>
    intro ds x y h
    cases ds with
    | nil =>
      rw [applyDefaultsGo_inst_nil] at h
      simp only [Except.ok.injEq] at h
      subst h
      exact ⟨rfl, fun _ => rfl⟩
    | cons hd ds =>
      obtain ⟨f, spec⟩ := hd
      rw [applyDefaultsGo_inst_cons] at h
      cases hft : pyGetItemStr spec "type" with
      | error e => rw [hft] at h; simp at h
      | ok ft =>
        rw [hft] at h; simp only [exceptBind_ok] at h
        cases hds : defaultStep env spec x f with
        | error e => rw [hds] at h; simp at h
        | ok doc1 =>
          rw [hds] at h; simp only [exceptBind_ok] at h
          obtain ⟨hsh1, hsh2⟩ := defaultStep_shape env spec x f doc1 hds
          cases hc2 : pyContains doc1 f with
          | error e => rw [hc2] at h; simp at h
          | ok c2 =>
            rw [hc2] at h; simp only [exceptBind_ok] at h
            cases c2 with
            | false =>
              simp only [Bool.false_eq_true, if_false] at h
              obtain ⟨t1, t2⟩ := ih ds doc1 y h
              refine ⟨t1.trans hsh1, fun hx => ?_⟩
              rw [t2 (by rw [hsh1, hx]), hsh2 hx]
            | true =>
              simp only [if_true] at h
              cases hval : pyGetItemStr doc1 f with
              | error e => rw [hval] at h; simp at h
              | ok value =>
                rw [hval] at h; simp only [exceptBind_ok] at h
                obtain ⟨kvs1, hdoc1, _⟩ := pyGetItemStr_ok hval
                subst hdoc1
                have hxdict : isDictObj x = true := by
                  rw [← hsh1]; rfl
                cases hrk : recKind ft value with
                | schemaRec ids =>
                  rw [hrk] at h
                  dsimp only at h
                  cases hrec : applyDefaultsGo env fuel (.inst ids value) with
                  | error e => rw [hrec] at h; simp at h
                  | ok v2 =>
                    rw [hrec] at h; simp only [exceptBind_ok] at h
                    cases hset : pySetItemStr (.dict kvs1) f v2 with
                    | error e => rw [hset] at h; simp at h
                    | ok doc2 =>
                      rw [hset] at h; simp only [exceptBind_ok] at h
                      obtain ⟨kvs1b, _, hdoc2⟩ := pySetItemStr_ok hset
                      subst hdoc2
                      obtain ⟨t1, _⟩ := ih ds _ y h
                      exact ⟨by rw [t1, hxdict]; rfl,
                        fun hx => absurd (hxdict.symm.trans hx) (by simp)⟩
                | arrayRec ids items =>
                  rw [hrk] at h
                  dsimp only at h
                  cases hrec : applyDefaultsGo env fuel (.itemsD ids items) with
                  | error e => rw [hrec] at h; simp at h
                  | ok v2 =>
                    rw [hrec] at h; simp only [exceptBind_ok] at h
                    cases hset : pySetItemStr (.dict kvs1) f v2 with
                    | error e => rw [hset] at h; simp at h
                    | ok doc2 =>
                      rw [hset] at h; simp only [exceptBind_ok] at h
                      obtain ⟨kvs1b, _, hdoc2⟩ := pySetItemStr_ok hset
                      subst hdoc2
                      obtain ⟨t1, _⟩ := ih ds _ y h
                      exact ⟨by rw [t1, hxdict]; rfl,
                        fun hx => absurd (hxdict.symm.trans hx) (by simp)⟩
                | skip =>
                  rw [hrk] at h
                  dsimp only at h
                  obtain ⟨t1, _⟩ := ih ds _ y h
                  exact ⟨by rw [t1, ← hsh1],
                    fun hx => absurd (hxdict.symm.trans hx) (by simp)⟩

theorem pyContains_dictSet_ne (kvs : List (String × Obj)) (g f : String)
    (v : Obj) (hne : g ≠ f) :
    pyContains (.dict (dictSet kvs g v)) f = pyContains (.dict kvs) f := by
  simp [pyContains, containsKey_dictSet_ne kvs g f v (fun hh => hne hh.symm)]

theorem pyGetItemStr_dictSet_ne (kvs : List (String × Obj)) (g f : String)
    (v : Obj) (hne : g ≠ f) :
    pyGetItemStr (.dict (dictSet kvs g v)) f = pyGetItemStr (.dict kvs) f := by
  simp [pyGetItemStr, lookupStr_dictSet_ne kvs g f v (fun hh => hne hh.symm)]

theorem applyDefaultsGo_inst_frame (env : Env) :
    ∀ (fuel : Nat) (ds : List (String × Obj)) (x y : Obj) (f : String),
      (∀ g sp, (g, sp) ∈ ds → g ≠ f) →
      applyDefaultsGo env fuel (.inst ds x) = .ok y →
      pyContains y f = pyContains x f ∧
        pyGetItemStr y f = pyGetItemStr x f := by
  intro fuel
  induction fuel with
  | zero => intro ds x y f _ h; rw [applyDefaultsGo_zero] at h; simp at h
  | succ fuel ih =>
    intro ds x y f hfr h
    cases ds with
    | nil =>
      rw [applyDefaultsGo_inst_nil] at h
      simp only [Except.ok.injEq] at h
      subst h
      exact ⟨rfl, rfl⟩
    | cons hd ds =>
      obtain ⟨g, spec⟩ := hd
      have hgf : g ≠ f := hfr g spec (List.mem_cons_self _ _)
      have hfr' : ∀ g2 sp, (g2, sp) ∈ ds → g2 ≠ f :=
        fun g2 sp hm => hfr g2 sp (List.mem_cons_of_mem _ hm)
      rw [applyDefaultsGo_inst_cons] at h
      cases hft : pyGetItemStr spec "type" with
      | error e => rw [hft] at h; simp at h
      | ok ft =>
        rw [hft] at h; simp only [exceptBind_ok] at h
        cases hds : defaultStep env spec x g with
        | error e => rw [hds] at h; simp at h
        | ok doc1 =>
          rw [hds] at h; simp only [exceptBind_ok] at h
          obtain ⟨hfr1, hfr2⟩ := defaultStep_frame env spec x g f doc1 hgf hds
          cases hc2 : pyContains doc1 g with
          | error e => rw [hc2] at h; simp at h
          | ok c2 =>
            rw [hc2] at h; simp only [exceptBind_ok] at h
            cases c2 with
            | false =>
              simp only [Bool.false_eq_true, if_false] at h
              obtain ⟨t1, t2⟩ := ih ds doc1 y f hfr' h
              exact ⟨t1.trans hfr1, t2.trans hfr2⟩
            | true =>
              simp only [if_true] at h
              cases hval : pyGetItemStr doc1 g with
              | error e => rw [hval] at h; simp at h
              | ok value =>
                rw [hval] at h; simp only [exceptBind_ok] at h
                obtain ⟨kvs1, hdoc1, _⟩ := pyGetItemStr_ok hval
                subst hdoc1
                cases hrk : recKind ft value with
                | schemaRec ids =>
                  rw [hrk] at h
                  dsimp only at h
                  cases hrec : applyDefaultsGo env fuel (.inst ids value) with
                  | error e => rw [hrec] at h; simp at h
                  | ok v2 =>
                    rw [hrec] at h; simp only [exceptBind_ok] at h
                    cases hset : pySetItemStr (.dict kvs1) g v2 with
                    | error e => rw [hset] at h; simp at h
                    | ok doc2 =>
                      rw [hset] at h; simp only [exceptBind_ok] at h
                      obtain ⟨kvs1b, hb, hdoc2⟩ := pySetItemStr_ok hset
                      obtain rfl : kvs1 = kvs1b := by
                        simpa using congrArg (fun o => o) hb
                      subst hdoc2
                      obtain ⟨t1, t2⟩ := ih ds _ y f hfr' h
                      exact ⟨(t1.trans (pyContains_dictSet_ne kvs1 g f v2 hgf)).trans hfr1,
                        (t2.trans (pyGetItemStr_dictSet_ne kvs1 g f v2 hgf)).trans hfr2⟩
                | arrayRec ids items =>
                  rw [hrk] at h
                  dsimp only at h
                  cases hrec : applyDefaultsGo env fuel (.itemsD ids items) with
                  | error e => rw [hrec] at h; simp at h
                  | ok v2 =>
                    rw [hrec] at h; simp only [exceptBind_ok] at h
                    cases hset : pySetItemStr (.dict kvs1) g v2 with
                    | error e => rw [hset] at h; simp at h
                    | ok doc2 =>
                      rw [hset] at h; simp only [exceptBind_ok] at h
                      obtain ⟨kvs1b, hb, hdoc2⟩ := pySetItemStr_ok hset
                      obtain rfl : kvs1 = kvs1b := by
                        simpa using congrArg (fun o => o) hb
                      subst hdoc2
                      obtain ⟨t1, t2⟩ := ih ds _ y f hfr' h
                      exact ⟨(t1.trans (pyContains_dictSet_ne kvs1 g f v2 hgf)).trans hfr1,
                        (t2.trans (pyGetItemStr_dictSet_ne kvs1 g f v2 hgf)).trans hfr2⟩
                | skip =>
                  rw [hrk] at h
                  dsimp only at h
                  obtain ⟨t1, t2⟩ := ih ds _ y f hfr' h
                  exact ⟨t1.trans hfr1, t2.trans hfr2⟩

theorem isDictObj_true {o : Obj} (h : isDictObj o = true) :
    ∃ kvs, o = .dict kvs := by
  cases o <;> first
    | exact ⟨_, rfl⟩
    | simp [isDictObj] at h

mutual
/-- Well-formed declared types: wherever the type is a nested `Schema`
or an `Array` of one, the nested doc spec is itself well-formed. -/
inductive TypeObjWF : Obj → Prop where
  | schemaT (ids : List (String × Obj)) (st : Bool) (vs : Obj) :
      SpecsWF ids → TypeObjWF (.schema ids st vs)
  | arraySchemaT (ids : List (String × Obj)) (st : Bool) (vs : Obj) :
      SpecsWF ids → TypeObjWF (.array (.schema ids st vs))
  | otherT (t : Obj) :
      (∀ ids st vs, t ≠ .schema ids st vs) →
      (∀ ids st vs, t ≠ .array (.schema ids st vs)) → TypeObjWF t

/-- Well-formedness of doc specs as Python dicts produce them: no two
fields share a name (a Python dict cannot hold duplicate keys), and the
declared type of every field is recursively well-formed. -/
inductive SpecsWF : List (String × Obj) → Prop where
  | nil : SpecsWF []
  | cons (f : String) (spec : Obj) (ds : List (String × Obj)) :
      (∀ g sp, (g, sp) ∈ ds → g ≠ f) →
      (∀ t, pyGetItemStr spec "type" = .ok t → TypeObjWF t) →
      SpecsWF ds → SpecsWF ((f, spec) :: ds)
end

/-- Re-running the same pending work on its own result. -/
def dcReplace : DCall → Obj → DCall
  | .inst ds _, out => .inst ds out
  | .itemsD ids _, out =>
    .itemsD ids (match out with | .list l => l | _ => [])

/-- Well-formedness of pending work. -/
inductive DCWF : DCall → Prop where
  | instWF (ds : List (String × Obj)) (d : Obj) : SpecsWF ds → DCWF (.inst ds d)
  | itemsWF (ids : List (String × Obj)) (items : List Obj) :
      SpecsWF ids → DCWF (.itemsD ids items)

theorem applyDefaultsGo_idem_aux (env : Env) :
    ∀ (fuel : Nat) (dc : DCall) (out : Obj), DCWF dc →
      applyDefaultsGo env fuel dc = .ok out →
      applyDefaultsGo env fuel (dcReplace dc out) = .ok out := by
  intro fuel
  induction fuel with
  | zero => intro dc out _ h; rw [applyDefaultsGo_zero] at h; simp at h
  | succ fuel ih =>
    intro dc out hwf h
    cases dc with
    | itemsD ids items =>
      dsimp only [dcReplace]
      have hids : SpecsWF ids := by cases hwf with | itemsWF _ _ hi => exact hi
      cases items with
      | nil =>
        rw [applyDefaultsGo_itemsD_nil] at h
        simp only [Except.ok.injEq] at h
        subst h
        exact applyDefaultsGo_itemsD_nil env fuel ids
      | cons item rest =>
        rw [applyDefaultsGo_itemsD_cons] at h
        cases h1 : applyDefaultsGo env fuel (.inst ids item) with
        | error e => rw [h1] at h; simp at h
        | ok item2 =>
          rw [h1] at h; simp only [exceptBind_ok] at h
          cases h2 : applyDefaultsGo env fuel (.itemsD ids rest) with
          | error e => rw [h2] at h; simp at h
          | ok rest2 =>
            rw [h2] at h; simp only [exceptBind_ok] at h
            obtain ⟨l, rfl⟩ :=
              applyDefaultsGo_itemsD_shape env fuel ids rest _ h2
            dsimp only at h
            simp only [Except.ok.injEq] at h
            subst h
            show applyDefaultsGo env (fuel + 1) (.itemsD ids (item2 :: l)) =
              .ok (.list (item2 :: l))
            rw [applyDefaultsGo_itemsD_cons]
            have hh1 : applyDefaultsGo env fuel (.inst ids item2) = .ok item2 :=
              ih (.inst ids item) item2 (DCWF.instWF _ _ hids) h1
            have hh2 : applyDefaultsGo env fuel (.itemsD ids l) = .ok (.list l) :=
              ih (.itemsD ids rest) (.list l) (DCWF.itemsWF _ _ hids) h2
            rw [hh1]
            simp only [exceptBind_ok]
            rw [hh2]
            simp only [exceptBind_ok]
    | inst ds d =>
      dsimp only [dcReplace]
      have hds : SpecsWF ds := by cases hwf with | instWF _ _ hi => exact hi
      cases ds with
      | nil =>
        rw [applyDefaultsGo_inst_nil] at h
        simp only [Except.ok.injEq] at h
        subst h
        exact applyDefaultsGo_inst_nil env fuel _
      | cons hd ds =>
        obtain ⟨f, spec⟩ := hd
        have hfresh : ∀ g sp, (g, sp) ∈ ds → g ≠ f := by
          cases hds with | cons _ _ _ hfr _ _ => exact hfr
        have htype : ∀ t, pyGetItemStr spec "type" = .ok t → TypeObjWF t := by
          cases hds with | cons _ _ _ _ ht _ => exact ht
        have hds' : SpecsWF ds := by
          cases hds with | cons _ _ _ _ _ hrest => exact hrest
        rw [applyDefaultsGo_inst_cons] at h
        cases hft : pyGetItemStr spec "type" with
        | error e => rw [hft] at h; simp at h
        | ok ft =>
          rw [hft] at h; simp only [exceptBind_ok] at h
          cases hdst : defaultStep env spec d f with
          | error e => rw [hdst] at h; simp at h
          | ok doc1 =>
            rw [hdst] at h; simp only [exceptBind_ok] at h
            cases hc2 : pyContains doc1 f with
            | error e => rw [hc2] at h; simp at h
            | ok c2 =>
              rw [hc2] at h; simp only [exceptBind_ok] at h
              cases c2 with
              | false =>
                simp only [Bool.false_eq_true, if_false] at h
                obtain ⟨hd1d, hcdf, hnodef⟩ :=
                  defaultStep_no_insert env spec d f doc1 hdst hc2
                subst hd1d
                obtain ⟨hfc, _⟩ :=
                  applyDefaultsGo_inst_frame env fuel ds doc1 out f hfresh h
                rw [applyDefaultsGo_inst_cons, hft]
                simp only [exceptBind_ok]
                rw [defaultStep_of_absent_no_default env spec out f
                  (hfc.trans hcdf) hnodef]
                simp only [exceptBind_ok]
                rw [hfc.trans hcdf]
                simp only [exceptBind_ok, Bool.false_eq_true, if_false]
                exact ih (.inst ds doc1) out (DCWF.instWF _ _ hds') h
              | true =>
                simp only [if_true] at h
                cases hval : pyGetItemStr doc1 f with
                | error e => rw [hval] at h; simp at h
                | ok value =>
                  rw [hval] at h; simp only [exceptBind_ok] at h
                  obtain ⟨kvs1, hdoc1, hlk1⟩ := pyGetItemStr_ok hval
                  subst hdoc1
                  cases hrk : recKind ft value with
                  | schemaRec ids =>
                    rw [hrk] at h
                    dsimp only at h
                    cases hrec : applyDefaultsGo env fuel (.inst ids value) with
                    | error e => rw [hrec] at h; simp at h
                    | ok v2 =>
                      rw [hrec] at h; simp only [exceptBind_ok] at h
                      cases hset : pySetItemStr (.dict kvs1) f v2 with
                      | error e => rw [hset] at h; simp at h
                      | ok doc2 =>
                        rw [hset] at h; simp only [exceptBind_ok] at h
                        obtain ⟨kvs1b, hb, hdoc2⟩ := pySetItemStr_ok hset
                        obtain rfl : kvs1 = kvs1b := by simpa using hb
                        subst hdoc2
                        obtain ⟨⟨st2, vs2, hfteq⟩, ⟨kvsv, hveq⟩⟩ :=
                          recKind_schemaRec_inv hrk
                        have hids : SpecsWF ids := by
                          have hw := htype ft hft
                          rw [hfteq] at hw
                          cases hw with
                          | schemaT _ _ _ hi => exact hi
                          | otherT _ h1 _ => exact absurd rfl (h1 ids st2 vs2)
                        obtain ⟨hsh1, _⟩ :=
                          applyDefaultsGo_inst_shape env fuel ids value v2 hrec
                        obtain ⟨kvs2, hv2⟩ := isDictObj_true
                          (o := v2) (by rw [hsh1, hveq]; rfl)
                        obtain ⟨hfc, hfg⟩ :=
                          applyDefaultsGo_inst_frame env fuel ds _ out f hfresh h
                        have hcd2 : pyContains
                            (.dict (dictSet kvs1 f v2)) f = .ok true := by
                          simp [pyContains, containsKey_dictSet_self]
                        have hgd2 : pyGetItemStr
                            (.dict (dictSet kvs1 f v2)) f = .ok v2 := by
                          simp [pyGetItemStr]
                        obtain ⟨hosh, _⟩ :=
                          applyDefaultsGo_inst_shape env fuel ds _ out h
                        obtain ⟨okvs, rfl⟩ := isDictObj_true
                          (o := out) (by rw [hosh]; rfl)
                        obtain ⟨okvs2, hoeq, hlo⟩ :=
                          pyGetItemStr_ok (hfg.trans hgd2)
                        obtain rfl : okvs = okvs2 := by simpa using hoeq
                        rw [applyDefaultsGo_inst_cons, hft]
                        simp only [exceptBind_ok]
                        rw [defaultStep_of_contains_true env spec _ f
                          (hfc.trans hcd2)]
                        simp only [exceptBind_ok]
                        rw [hfc.trans hcd2]
                        simp only [exceptBind_ok, if_true]
                        rw [hfg.trans hgd2]
                        simp only [exceptBind_ok]
                        rw [show recKind ft v2 = .schemaRec ids by
                          rw [hfteq, hv2]; rfl]
                        dsimp only
                        rw [show applyDefaultsGo env fuel (.inst ids v2) =
                            .ok v2 from
                          ih (.inst ids value) v2 (DCWF.instWF _ _ hids) hrec]
                        simp only [exceptBind_ok]
                        rw [show pySetItemStr (.dict okvs) f v2 =
                            .ok (.dict okvs) by
                          simp [pySetItemStr, dictSet_lookup_self okvs f v2 hlo]]
                        simp only [exceptBind_ok]
                        exact ih (.inst ds _) (.dict okvs)
                          (DCWF.instWF _ _ hds') h
                  | arrayRec ids items =>
                    rw [hrk] at h
                    dsimp only at h
                    cases hrec : applyDefaultsGo env fuel (.itemsD ids items) with
                    | error e => rw [hrec] at h; simp at h
                    | ok v2 =>
                      rw [hrec] at h; simp only [exceptBind_ok] at h
                      cases hset : pySetItemStr (.dict kvs1) f v2 with
                      | error e => rw [hset] at h; simp at h
                      | ok doc2 =>
                        rw [hset] at h; simp only [exceptBind_ok] at h
                        obtain ⟨kvs1b, hb, hdoc2⟩ := pySetItemStr_ok hset
                        obtain rfl : kvs1 = kvs1b := by simpa using hb
                        subst hdoc2
                        obtain ⟨⟨st2, vs2, hfteq⟩, hveq⟩ :=
                          recKind_arrayRec_inv hrk
                        have hids : SpecsWF ids := by
                          have hw := htype ft hft
                          rw [hfteq] at hw
                          cases hw with
                          | arraySchemaT _ _ _ hi => exact hi
                          | otherT _ _ h2 => exact absurd rfl (h2 ids st2 vs2)
                        obtain ⟨l, hv2⟩ :=
                          applyDefaultsGo_itemsD_shape env fuel ids items v2 hrec
                        obtain ⟨hfc, hfg⟩ :=
                          applyDefaultsGo_inst_frame env fuel ds _ out f hfresh h
                        have hcd2 : pyContains
                            (.dict (dictSet kvs1 f v2)) f = .ok true := by
                          simp [pyContains, containsKey_dictSet_self]
                        have hgd2 : pyGetItemStr
                            (.dict (dictSet kvs1 f v2)) f = .ok v2 := by
                          simp [pyGetItemStr]
                        obtain ⟨hosh, _⟩ :=
                          applyDefaultsGo_inst_shape env fuel ds _ out h
                        obtain ⟨okvs, rfl⟩ := isDictObj_true
                          (o := out) (by rw [hosh]; rfl)
                        obtain ⟨okvs2, hoeq, hlo⟩ :=
                          pyGetItemStr_ok (hfg.trans hgd2)
                        obtain rfl : okvs = okvs2 := by simpa using hoeq
                        rw [applyDefaultsGo_inst_cons, hft]
                        simp only [exceptBind_ok]
                        rw [defaultStep_of_contains_true env spec _ f
                          (hfc.trans hcd2)]
                        simp only [exceptBind_ok]
                        rw [hfc.trans hcd2]
                        simp only [exceptBind_ok, if_true]
                        rw [hfg.trans hgd2]
                        simp only [exceptBind_ok]
                        rw [show recKind ft v2 = .arrayRec ids l by
                          rw [hfteq, hv2]; rfl]
                        dsimp only
                        rw [show applyDefaultsGo env fuel (.itemsD ids l) =
                            .ok v2 from hv2 ▸
                          ih (.itemsD ids items) v2 (DCWF.itemsWF _ _ hids)
                            hrec]
                        simp only [exceptBind_ok]
                        rw [show pySetItemStr (.dict okvs) f v2 =
                            .ok (.dict okvs) by
                          simp [pySetItemStr, dictSet_lookup_self okvs f v2 hlo]]
                        simp only [exceptBind_ok]
                        exact ih (.inst ds _) (.dict okvs)
                          (DCWF.instWF _ _ hds') h
                  | skip =>
                    rw [hrk] at h
                    dsimp only at h
                    obtain ⟨hfc, hfg⟩ :=
                      applyDefaultsGo_inst_frame env fuel ds _ out f hfresh h
                    rw [applyDefaultsGo_inst_cons, hft]
                    simp only [exceptBind_ok]
                    rw [defaultStep_of_contains_true env spec _ f
                      (hfc.trans hc2)]
                    simp only [exceptBind_ok]
                    rw [hfc.trans hc2]
                    simp only [exceptBind_ok, if_true]
                    rw [hfg.trans hval]
                    simp only [exceptBind_ok]
                    rw [hrk]
                    dsimp only
                    exact ih (.inst ds _) out (DCWF.instWF _ _ hds') h

/-- A primitive type object is a well-formed declared type. -/
theorem typeObjWF_typ (p : PrimType) : TypeObjWF (.typ p) :=
  TypeObjWF.otherT _ (fun _ _ _ h => Obj.noConfusion h)
    (fun _ _ _ h => Obj.noConfusion h)

/-- C10: `apply_defaults` is idempotent — for every well-formed schema
(no duplicate field names, as Python dicts guarantee) and every
instance, if applying defaults once yields `d2` then applying them to
`d2` again yields `d2` unchanged (first conjunct); the reason is that a
default is only written when the field is absent, and a present value —
even an explicit null — is never overwritten (second conjunct: the
absent-field step leaves any instance that contains the field, whatever
its value, untouched). -/
theorem apply_defaults_idempotent :
    (∀ (env : Env) (fuel : Nat) (ds : List (String × Obj)) (d d2 : Obj),
      SpecsWF ds →
      applyDefaultsGo env fuel (.inst ds d) = .ok d2 →
      applyDefaultsGo env fuel (.inst ds d2) = .ok d2) ∧
    (∀ (env : Env) (spec : Obj) (kvs : List (String × Obj)) (f : String),
      containsKey kvs f = true →
      defaultStep env spec (.dict kvs) f = .ok (.dict kvs)) := by
  constructor
  · intro env fuel ds d d2 hwf h
    exact applyDefaultsGo_idem_aux env fuel (.inst ds d) d2
      (DCWF.instWF ds d hwf) h
  · intro env spec kvs f hc
    exact defaultStep_of_contains_true env spec (.dict kvs) f
      (by simp [pyContains, hc])

def c10inner : List (String × Obj) :=
  [("pv", .dict [("type", .typ .int), ("default", .int 1)])]

def c10ds : List (String × Obj) :=
  [("likes", .dict [("type", .typ .int), ("default", .int 0)]),
   ("content", .dict [("type", .schema c10inner true (.list [])),
      ("default", .dict [])])]

def c10out : Obj :=
  .dict [("likes", .int 0), ("content", .dict [("pv", .int 1)])]

theorem c10inner_wf : SpecsWF c10inner :=
  SpecsWF.cons _ _ _ (fun _ _ hm => absurd hm (List.not_mem_nil _))
    (fun t ht => by
      simp [pyGetItemStr, lookupStr, c10inner] at ht
      rw [← ht]
      exact typeObjWF_typ _)
    SpecsWF.nil

theorem c10ds_wf : SpecsWF c10ds := by
  refine SpecsWF.cons _ _ _ ?_ ?_ (SpecsWF.cons _ _ _
    (fun _ _ hm => absurd hm (List.not_mem_nil _)) ?_ SpecsWF.nil)
  · intro g sp hm
    simp [c10ds] at hm
    intro hg
    rw [hg] at hm
    simp at hm
  · intro t ht
    simp [pyGetItemStr, lookupStr, c10ds] at ht
    rw [← ht]
    exact typeObjWF_typ _
  · intro t ht
    simp [pyGetItemStr, lookupStr, c10ds] at ht
    rw [← ht]
    exact TypeObjWF.schemaT _ _ _ c10inner_wf

theorem apply_defaults_idempotent_witness :
    (applyDefaultsGo env0 10 (.inst c10ds c10out) = .ok c10out) ∧
    (defaultStep env0 (.dict []) (.dict [("x", Obj.none)]) "x" =
      .ok (.dict [("x", Obj.none)])) :=
  ⟨apply_defaults_idempotent.1 env0 10 c10ds (.dict []) c10out c10ds_wf rfl,
   apply_defaults_idempotent.2 env0 (.dict []) [("x", Obj.none)] "x" rfl⟩

end Schemer


